import Mathlib

/-!
Shallow embedding of the core of the `duplicate` crate (source duplication and
substitution engine), translated from the repository sources:

* `src/substitute.rs`  — the `Substitution` model and the duplication engine
  (`duplicate_and_substitute`, `substitute_next_token`);
* `src/parse.rs`       — the invocation parser (global substitutions, verbose
  and short syntax, nested invocations);
* `src/parse_utils.rs` — token-stream helpers (`peek_next_token`, `parse_group`,
  `check_group`, `extract_argument_list`);
* `src/module_disambiguation.rs` and the `SubstitutionGroup` /
  `disambiguate_module` / `get_module_name` items of `src/lib.rs`.

Rust `proc_macro` token streams are modelled as lists of `Tok`; spans are
abstract numeric identifiers (`proc_macro::Span` is opaque; only its identity
is propagated into error values).  Rust `Result<T, (Span, String)>` /
`Result<T, Error>` is modelled as `Except RErr T`, with a distinguished
`RErr.fatal` constructor standing for Rust panics (`unwrap` on `None`,
out-of-bounds indexing) and for exhaustion of the explicit recursion fuel used
for the parser functions whose Rust recursion is unbounded (nested invocations
re-parse the token stream that a nested `duplicate_and_substitute` produced).
-/

namespace Duplicate

/-- Source positions: `proc_macro::Span` is opaque, so spans are abstract
identifiers; `Span.call_site()` is the distinguished identifier `0`. -/
abbrev Span := Nat

/-- `Span::call_site()`. -/
def callSite : Span := 0

/-- `proc_macro::Delimiter`: parentheses, brackets, braces, or the invisible
`None` delimiter. -/
inductive Delim where
| paren
| bracket
| brace
| nonDelim
deriving DecidableEq, Repr

/-- `proc_macro::TokenTree`: an identifier, punctuation (with its
`Spacing::Alone` flag), a literal, or a delimited group carrying a nested
token sequence. -/
inductive Tok where
| ident (s : String) (sp : Span)
| punct (c : Char) (alone : Bool) (sp : Span)
| lit (s : String) (sp : Span)
| group (d : Delim) (ts : List Tok) (sp : Span)

/-- `TokenTree::span()`. -/
def Tok.span : Tok → Span
| .ident _ sp => sp
| .punct _ _ sp => sp
| .lit _ sp => sp
| .group _ _ sp => sp

mutual

/-- Size of a token's nested contents (groups only); auxiliary to
`toksSize`, the termination measure of the engine's recursion. -/
def Tok.innerSize : Tok → Nat
| .group _ ts _ => toksSize ts
| _ => 0

/-- Size of a token list: one per token plus the sizes of nested group
contents. -/
def toksSize : List Tok → Nat
| [] => 0
| t :: ts => 1 + Tok.innerSize t + toksSize ts

end

/-- Errors: `.err` models `(Span, String)` error values (`Error` in the newer
files carries the same data); `.fatal` models Rust panics and fuel
exhaustion. -/
inductive RErr where
| err (sp : Span) (msg : String)
| fatal (msg : String)
deriving DecidableEq, Repr

/-- `parse_utils::punct_is_char`: the punctuation equals the character and has
`Spacing::Alone`. -/
def punctIsChar (c : Char) (alone : Bool) (target : Char) : Bool :=
  c == target && alone

/-- `parse_utils::is_semicolon` lifted to whole tokens (a `Punct` token that is
a lone semicolon). -/
def Tok.isSemicolon : Tok → Bool
| .punct c alone _ => punctIsChar c alone ';'
| _ => false

mutual

/-- `substitute.rs::SubType`: one part of a substitution — a fixed run of
tokens, a reference to the argument of the given index, or a nested delimited
group whose interior is itself a substitution. -/
inductive SubType where
| tok (ts : List Tok)
| arg (idx : Nat)
| group (d : Delim) (sub : Substitution)

/-- `substitute.rs::Substitution`: an argument count and the ordered list of
sub-substitutions whose concatenation is the result of an application. -/
inductive Substitution where
| mk (argCount : Nat) (sub : List SubType)

end

/-- `Substitution::arg_count` field accessor (`argument_count`). -/
def Substitution.argCount : Substitution → Nat
| .mk n _ => n

/-- `Substitution::sub` field accessor. -/
def Substitution.parts : Substitution → List SubType
| .mk _ ps => ps

/-- `Substitution::new_simple`: a zero-argument substitution with a single
fixed-token part (the part is pushed even when the stream is empty). -/
def Substitution.newSimple (ts : List Tok) : Substitution :=
  .mk 0 [.tok ts]

/-- The token accumulation of `Substitution::new`: `saved` models the
`saved_tokens` buffer (`None` is represented by the empty list — the Rust
buffer is never `Some` of an empty stream, since it is only created by
inserting a token). -/
def subNewParts (arguments : List String) : List Tok → List Tok → List SubType
| [], saved => if saved.isEmpty then [] else [.tok saved]
| t :: rest, saved =>
  match t with
  | .ident s sp =>
    match arguments.findIdx? (· == s) with
    | some i =>
      (if saved.isEmpty then [] else [.tok saved]) ++ .arg i :: subNewParts arguments rest []
    | none => subNewParts arguments rest (saved ++ [.ident s sp])
  | .group d inner gsp =>
    (if saved.isEmpty then [] else [.tok saved])
      ++ .group d (.mk arguments.length (subNewParts arguments inner [])) :: subNewParts arguments rest []
  | other => subNewParts arguments rest (saved ++ [other])

/-- `Substitution::new`: scan the body, turning runs of plain tokens into
fixed parts, parameter identifiers into argument references (first matching
parameter index), and delimited groups into nested substitutions built over
the same parameter list.  The Rust function returns `Result` but has no error
source of its own (the only `?` is on the recursive call), so it is total. -/
def Substitution.new (arguments : List String) (ts : List Tok) : Substitution :=
  .mk arguments.length (subNewParts arguments ts [])

/-- The arity-mismatch message of `Substitution::apply`. -/
def arityMsg (expected got : Nat) : String :=
  s!"Expected {expected} substitution arguments but got {got}"

mutual

/-- `Substitution::apply`: arity-check the arguments, then concatenate the
parts — fixed tokens verbatim, argument references replaced by the matching
argument verbatim, nested groups re-wrapped in their delimiter around the
recursively applied interior (`Group::new` leaves the span at call-site). -/
def Substitution.apply (s : Substitution) (arguments : List (List Tok)) (errSpan : Span) :
    Except RErr (List Tok) :=
  match s with
  | .mk argCount parts =>
    if arguments.length = argCount then applySubTypes parts arguments errSpan
    else .error (.err errSpan (arityMsg argCount arguments.length))

/-- The part-concatenation loop of `Substitution::apply`; `arguments[*idx]`
out of bounds is a Rust panic, modelled by `RErr.fatal`. -/
def applySubTypes : List SubType → List (List Tok) → Span → Except RErr (List Tok)
| [], _, _ => .ok []
| p :: ps, arguments, errSpan => do
  let head ← match p with
    | .tok ts => pure ts
    | .arg i =>
      match arguments[i]? with
      | some a => pure a
      | none => .error (.fatal "substitution argument index out of bounds")
    | .group d sub => do
      let inner ← sub.apply arguments errSpan
      pure [Tok.group d inner callSite]
  let tail ← applySubTypes ps arguments errSpan
  pure (head ++ tail)

end

/-- `Substitution::apply_simple`: apply with no arguments. -/
def Substitution.applySimple (s : Substitution) (errSpan : Span) : Except RErr (List Tok) :=
  s.apply [] errSpan

/-- `Substitution::substitutes_identifier`: `some` exactly when the
substitution consists of a single fixed-token part holding exactly one
identifier token. -/
def Substitution.substitutesIdentifier : Substitution → Option (String × Span)
| .mk _ [.tok [.ident s sp]] => some (s, sp)
| _ => none

/-- `lib.rs::SubstitutionGroup`: a map from substitution-identifier name to
`Substitution` plus the identifier insertion order.  The Rust struct pairs a
`HashMap` with an `identifier_order` vector that always holds exactly the
map's keys in insertion order; both are represented by one association list
in insertion order (lookup by first match coincides with the `HashMap`, since
`add_substitution` rejects re-assignment, so keys are unique). -/
structure SubstitutionGroup where
  subs : List (String × Substitution)

/-- `SubstitutionGroup::new`. -/
def SubstitutionGroup.empty : SubstitutionGroup := ⟨[]⟩

/-- `SubstitutionGroup::substitution_of`. -/
def SubstitutionGroup.lookup (g : SubstitutionGroup) (s : String) : Option Substitution :=
  (g.subs.find? (fun p => p.1 == s)).map (·.2)

/-- `SubstitutionGroup::identifiers_ordered` (also the key set of
`identifiers`, here in insertion order). -/
def SubstitutionGroup.identifiersOrdered (g : SubstitutionGroup) : List String :=
  g.subs.map (·.1)

/-- `SubstitutionGroup::identifiers_with_args`: each identifier with the
argument count of its substitution (the Rust iterator has `HashMap` order;
only its set of elements is ever used, here given in insertion order). -/
def SubstitutionGroup.identifiersWithArgs (g : SubstitutionGroup) : List (String × Nat) :=
  g.subs.map (fun p => (p.1, p.2.argCount))

/-- `SubstitutionGroup::add_substitution`: error (message as in `lib.rs`,
including its typo) when the identifier already has a substitution, otherwise
record the substitution and the identifier's insertion order. -/
def SubstitutionGroup.addSubstitution (g : SubstitutionGroup) (ident : String × Span)
    (sub : Substitution) : Except RErr SubstitutionGroup :=
  if (g.lookup ident.1).isSome then
    .error (.err ident.2 "Substitution identifier assigned mutiple substitutions")
  else
    .ok ⟨g.subs ++ [(ident.1, sub)]⟩

/-- `lib.rs::DuplicationDefinition`: the global substitution group plus the
ordered per-duplicate groups. -/
structure DuplicationDefinition where
  globalSubstitutions : SubstitutionGroup
  duplications : List SubstitutionGroup

/-- The left-delimiter description used by `parse_utils::group_err`. -/
def delimStr : Option Delim → String
| some .brace => "\x27\x7b\x27"
| some .bracket => "\x27[\x27"
| some .paren => "\x27(\x27"
| some .nonDelim => ""
| none => "\x27\x7b\x27, \x27[\x27, or \x27(\x27"

/-- `parse_utils::group_err`: the error for group checking/parsing.  Rust
reaches `unreachable!` when the expected delimiter is the `None` delimiter
(modelled by `.fatal`); otherwise the message is composed of the prefix, the
expected delimiter and the hints. -/
def groupErr (sp : Span) (prefixMsg : String) (expected : Option Delim) (hints : String) : RErr :=
  if expected = some .nonDelim then .fatal "Shouldn\x27t expect None delimiters"
  else .err sp (prefixMsg ++ "\nExpected " ++ delimStr expected ++ ".\n" ++ hints)

/-- `parse_utils::check_delimiter` specialised into `check_group` /
`peek_parse_group`: a group tuple is `(delimiter, contents, span)`. -/
def checkGroup (tree : Tok) (del : Delim) (hints : String) :
    Except RErr (Delim × List Tok × Span) :=
  match tree with
  | .group d inner sp =>
    if d = del then .ok (d, inner, sp)
    else .error (groupErr sp "Unexpected delimiter for group." (some del) "")
  | t => .error (groupErr t.span "Not a group." (some del) hints)

/-- `parse_utils::peek_parse_group`: peek at the next token, requiring a group
and (when a delimiter is given) that specific delimiter; consumes nothing. -/
def peekParseGroup (ts : List Tok) (del : Option Delim) (parentSpan : Span) (hints : String) :
    Except RErr (Delim × List Tok × Span) :=
  match ts with
  | [] => .error (groupErr parentSpan "Unexpected end of macro invocation." del hints)
  | .group d inner sp :: _ =>
    match del with
    | some d' =>
      if d = d' then .ok (d, inner, sp)
      else .error (groupErr sp "Unexpected delimiter for group." (some d') "")
    | none => .ok (d, inner, sp)
  | t :: _ => .error (groupErr t.span "Not a group." del hints)

/-- `parse_utils::parse_group`: like `peek_parse_group` but consuming the
group token on success; the remaining stream is returned alongside. -/
def parseGroup (ts : List Tok) (del : Option Delim) (parentSpan : Span) (hints : String) :
    Except RErr ((Delim × List Tok × Span) × List Tok) :=
  match peekParseGroup ts del parentSpan hints with
  | .ok g => .ok (g, ts.drop 1)
  | .error e => .error e

/-- The end-of-input message of `peek_next_token`. -/
def endOfMacroMsg (expected : String) : String :=
  "Unexpected end of macro invocation.\nExpected: " ++ expected

/-- The empty-`None`-group internal-error message of `peek_next_token`. -/
def noneGroupEmptyMsg (expected : String) : String :=
  "Encountered none-delimited group with no tokens. This is an internal error. Please file a bug report.\nExpected: "
    ++ expected

/-- The multi-token-`None`-group internal-error message of
`peek_next_token`. -/
def noneGroupMultiMsg (expected : String) : String :=
  "Encountered none-delimited group with multiple tokens. This is an internal error. Please file a bug report.\nExpected: "
    ++ expected

/-- `parse_utils::peek_next_token`: peek at the next token; a `None`-delimited
group at the head is spliced — its single token is produced (also when
followed by exactly one lone trailing semicolon), and an empty or
multi-token `None` group is an internal error.  Consumes nothing. -/
def peekNextToken (ts : List Tok) (parentSpan : Span) (expected : String) :
    Except RErr Tok :=
  match ts with
  | [] => .error (.err parentSpan (endOfMacroMsg expected))
  | t :: _ =>
    match t with
    | .group .nonDelim inner gsp =>
      match inner with
      | [] => .error (.err gsp (noneGroupEmptyMsg expected))
      | r :: ins =>
        match ins with
        | [] => .ok r
        | [p] =>
          if p.isSemicolon then .ok r
          else .error (.err gsp (noneGroupMultiMsg expected))
        | _ => .error (.err gsp (noneGroupMultiMsg expected))
    | t => .ok t

/-- `parse_utils::next_token`: `peek_next_token`, consuming the (whole) head
token on success; the remaining stream is returned alongside. -/
def nextToken (ts : List Tok) (parentSpan : Span) (expected : String) :
    Except RErr (Tok × List Tok) :=
  match peekNextToken ts parentSpan expected with
  | .ok t => .ok (t, ts.drop 1)
  | .error e => .error e

/-- `parse_utils::extract_argument_list`: a comma-separated list of plain
identifiers (trailing comma accepted). -/
def extractArgumentList : List Tok → Except RErr (List String)
| [] => .ok []
| .ident s _ :: rest =>
  match rest with
  | [] => .ok [s]
  | t :: rest' =>
    match t with
    | .punct c alone _ =>
      if punctIsChar c alone ',' then (s :: ·) <$> extractArgumentList rest'
      else .error (.err t.span "Expected \x27,\x27.")
    | _ => .error (.err t.span "Expected \x27,\x27.")
| t :: _ => .error (.err t.span "Expected substitution identifier argument as identifier.")

/-- One step of the snake-case fold: the `Bool` records whether the previous
character was a word character that triggers a boundary before an upper-case
letter. -/
def snakeStep (acc : String × Bool) (c : Char) : String × Bool :=
  if c = '_' ∨ c = '-' then (acc.1.push '_', false)
  else if c.isUpper then
    ((if acc.2 then acc.1.push '_' else acc.1).push c.toLower, false)
  else (acc.1.push c, true)

/-- Models the external `heck` crate\x27s `ToSnakeCase` (used by
`module_disambiguation.rs`) for the bare-identifier inputs that reach it:
lower-case everything, inserting an underscore at word boundaries. -/
def toSnakeCase (s : String) : String :=
  (s.toList.foldl snakeStep ("", false)).1

/-- The no-candidate error message of `module_disambiguation::find_simple`. -/
def findSimpleErrMsg : String :=
  "Was unable to find a suitable substitution identifier to postfix on the module\x27s name.\nHint: If a substitution identifier\x27s substitutions all consist of a single identifier and nothing, they will automatically be postfixed on the module name to make them unique."

/-- The inner loop of `find_simple` for one candidate: check every group in
order; a group without the identifier is a Rust `unwrap` panic, a group whose
substitution is not a single bare identifier rejects the candidate. -/
def allSimple (c : String) : List SubstitutionGroup → Except RErr Bool
| [] => .ok true
| g :: rest =>
  match g.lookup c with
  | none => .error (.fatal "find_simple: unwrap on missing substitution")
  | some sub =>
    if sub.substitutesIdentifier.isSome then allSimple c rest else .ok false

/-- The candidate loop of `find_simple`: first identifier (in the first
group\x27s declaration order) whose substitution is a single bare identifier in
every group. -/
def findSimpleGo (gs : List SubstitutionGroup) : List String → Except RErr (Option String)
| [] => .ok none
| c :: cs => do
  let ok ← allSimple c gs
  if ok then .ok (some c) else findSimpleGo gs cs

/-- `module_disambiguation::find_simple`: empty group list succeeds with the
empty identifier; otherwise the first qualifying candidate of the first
group\x27s declaration order, or a descriptive error at the module\x27s span. -/
def findSimple (gs : List SubstitutionGroup) (modSpan : Span) : Except RErr String :=
  match gs with
  | [] => .ok ""
  | g :: _ => do
    let r ← findSimpleGo gs g.identifiersOrdered
    match r with
    | some c => .ok c
    | none => .error (.err modSpan findSimpleErrMsg)

/-- `lib.rs::get_module_name`: the item parses as `mod <name> { … }` (the
Rust version reads through a `TokenIter`, whose `None`-group splicing and
nested-invocation expansion are not exercised by the plain streams the old
engine feeds it; the embedding matches the three leading tokens directly). -/
def getModuleName (item : List Tok) : Option (String × Span) :=
  match item with
  | .ident "mod" _ :: .ident name nsp :: .group .brace _ _ :: _ => some (name, nsp)
  | _ => none

/-- `lib.rs::disambiguate_module` (with the default `module_disambiguation`
feature enabled): when there is at least one per-duplicate group and the item
is a module whose name the first group does not already substitute, find the
disambiguating identifier; otherwise no disambiguation. -/
def disambiguateModule (item : List Tok) (gs : List SubstitutionGroup) :
    Except RErr (Option ((String × Span) × String)) :=
  match gs.head?, getModuleName item with
  | some g, some (name, nsp) =>
    if (g.lookup name).isSome then .ok none
    else do
      let c ← findSimple gs nsp
      .ok (some ((name, nsp), c))
  | _, _ => .ok none

mutual

/-- One step of `substitute.rs::substitute_next_token` on a non-empty stream
(head `t`, tail `tl`): an identifier found in exactly one of the two groups is
substituted (parsing and recursively duplicating a parenthesised argument list
first when the substitution is parameterized), an identifier found in both is
the ambiguity error, a group is rewritten recursively and re-wrapped in its
delimiter (`Group::new` leaves the span at call-site), and any other token is
copied verbatim.  Returns the produced stream and the remaining input (with
its size bound, so the enclosing loops terminate). -/
def snt (global cur : SubstitutionGroup) (t : Tok) (tl : List Tok) :
    Except RErr (List Tok × {rest : List Tok // toksSize rest ≤ toksSize tl}) :=
  match t with
  | .ident s sp =>
    match cur.lookup s, global.lookup s with
    | some sub, none | none, some sub =>
      if sub.argCount > 0 then
        -- `parse_group(tree, Delimiter::Parenthesis, ident.span(), "")`
        match tl with
        | [] =>
          .error (groupErr sp "Unexpected end of macro invocation." (some .paren) "")
        | .group d inner psp :: tl' =>
          if d = .paren then do
            let args ← parseArgs global cur inner
            let out ← sub.apply args psp
            .ok (out, ⟨tl', by simp only [toksSize]; omega⟩)
          else .error (groupErr psp "Unexpected delimiter for group." (some .paren) "")
        | t' :: _ => .error (groupErr t'.span "Not a group." (some .paren) "")
      else do
        let out ← sub.applySimple sp
        .ok (out, ⟨tl, Nat.le_refl _⟩)
    | none, none => .ok ([.ident s sp], ⟨tl, Nat.le_refl _⟩)
    | some _, some _ => .error (.err sp "Multiple substitutions for identifier")
  | .group d inner gsp =>
    do
      let inner' ← substituteStream global cur inner
      .ok ([.group d inner' callSite], ⟨tl, Nat.le_refl _⟩)
  | other => .ok ([other], ⟨tl, Nat.le_refl _⟩)
termination_by 16 * toksSize (t :: tl)
decreasing_by
all_goals try simp only [toksSize, Tok.innerSize]
all_goals omega

/-- The argument-collection loop inside `substitute_next_token`: each argument
is a bracketed snippet, recursively put through `duplicate_and_substitute`
with the current substitution group as the only per-duplicate group; arguments
are comma-separated (a trailing comma, or none after the last argument, is
accepted); a non-bracket token where an argument is expected reproduces
`parse_group`'s error; exhaustion ends the loop. -/
def parseArgs (global cur : SubstitutionGroup) : List Tok → Except RErr (List (List Tok))
| [] => .ok []
| .group d inner gsp :: rest =>
  if d = .bracket then do
    let a ← duplicateAndSubstitute inner global [cur]
    match rest with
    | [] => .ok [a]
    | .punct c alone csp :: rest' =>
      if punctIsChar c alone ',' then do
        let more ← parseArgs global cur rest'
        .ok (a :: more)
      else .error (.err csp "Expected \x27,\x27")
    | t :: _ => .error (.err t.span "Expected \x27,\x27")
  else .error (groupErr gsp "Unexpected delimiter for group." (some .bracket) "")
| t :: _ => .error (groupErr t.span "Not a group." (some .bracket) "")
termination_by ts => 16 * toksSize ts + 1
decreasing_by
all_goals try simp only [toksSize, Tok.innerSize, List.length_cons, List.length_nil]
all_goals omega

/-- The `while let Some(stream) = substitute_next_token(..)` loop: one full
rewrite pass over a token stream (used for group interiors and, via
`dupLoop`, for the item of each duplicate). -/
def substituteStream (global cur : SubstitutionGroup) : List Tok → Except RErr (List Tok)
| [] => .ok []
| t :: tl => do
  let pr ← snt global cur t tl
  let more ← substituteStream global cur pr.2.val
  .ok (pr.1 ++ more)
termination_by ts => 16 * toksSize ts + 2
decreasing_by
all_goals first
| (simp only [toksSize, Tok.innerSize]; omega)
| (have hle := pr.2.2; simp only [toksSize, Tok.innerSize] at hle ⊢; omega)

/-- The plain iteration step of `duplicate_and_substitute_one`'s loop:
rewrite the head with `substitute_next_token` and continue the loop with the
given module-substitution flag. -/
def dupStep (global cur : SubstitutionGroup) (mi : Option ((String × Span) × String))
    (substituted : Bool) : List Tok → Except RErr (List Tok)
| [] => .ok []
| t :: tl => do
  let pr ← snt global cur t tl
  let more ← dupLoop global cur mi substituted pr.2.val
  .ok (pr.1 ++ more)
termination_by ts => 16 * toksSize ts + 3
decreasing_by
all_goals first
| (simp only [toksSize, Tok.innerSize]; omega)
| (have hle := pr.2.2; simp only [toksSize, Tok.innerSize] at hle ⊢; omega)

/-- `duplicate_and_substitute_one` (the closure in
`duplicate_and_substitute`): while the module substitution has not yet
happened, each iteration first runs `try_substitute_mod` — when there is
disambiguation information and the head is the `mod` keyword, the keyword and
the following name token are consumed and replaced by
`mod <name>_<snake_case(value)>` (the `unwrap`s of `try_substitute_mod` are
Rust panics) — and then rewrites the next token. -/
def dupLoop (global cur : SubstitutionGroup) (mi : Option ((String × Span) × String))
    (substituted : Bool) (ts : List Tok) : Except RErr (List Tok) :=
  if substituted then dupStep global cur mi true ts
  else
    match mi with
    | some ((mname, _), subIdent) =>
      match ts with
      | .ident s spK :: tlm =>
        if s = "mod" then
          match tlm with
          | [] => .error (.fatal "try_substitute_mod: unwrap on exhausted item")
          | nameTok :: tlr =>
            match cur.lookup subIdent with
            | none => .error (.fatal "try_substitute_mod: unwrap on missing substitution")
            | some sub =>
              match sub.substitutesIdentifier with
              | none =>
                .error (.fatal "try_substitute_mod: unwrap on non-identifier substitution")
              | some (v, _) => do
                let more ← dupLoop global cur mi true tlr
                .ok (.ident "mod" spK :: .ident (mname ++ "_" ++ toSnakeCase v) nameTok.span
                      :: more)
        else dupStep global cur mi false (.ident s spK :: tlm)
      | other => dupStep global cur mi false other
    | none => dupStep global cur mi false ts
termination_by 16 * toksSize ts + 4
decreasing_by
all_goals try simp only [toksSize, Tok.innerSize]
all_goals omega

/-- The `for substitutions in sub_groups` tail loop of
`duplicate_and_substitute`: one rewrite pass per remaining group, outputs
concatenated in order. -/
def dupGroupsTail (item : List Tok) (global : SubstitutionGroup)
    (mi : Option ((String × Span) × String)) :
    List SubstitutionGroup → Except RErr (List Tok)
| [] => .ok []
| g :: gs => do
  let a ← dupLoop global g mi false item
  let b ← dupGroupsTail item global mi gs
  .ok (a ++ b)
termination_by gs => 16 * toksSize item + 6 + 2 * gs.length
decreasing_by
all_goals try simp only [toksSize, Tok.innerSize, List.length_cons, List.length_nil]
all_goals omega

/-- `substitute.rs::duplicate_and_substitute`: compute the module
disambiguation once, run one rewrite pass for the first group (or for the
empty group if none are given — "we always want at least 1 duplicate"), then
one pass per remaining group, concatenating all outputs. -/
def duplicateAndSubstitute (item : List Tok) (global : SubstitutionGroup)
    (gs : List SubstitutionGroup) : Except RErr (List Tok) := do
  let mi ← disambiguateModule item gs
  let first ← dupLoop global (gs.headD SubstitutionGroup.empty) mi false item
  let rest ← dupGroupsTail item global mi gs.tail
  pure (first ++ rest)
termination_by 16 * toksSize item + 7 + 2 * gs.length
decreasing_by
all_goals try simp only [toksSize, Tok.innerSize, List.length_tail, List.length_cons,
  List.length_nil]
all_goals omega

end

/-- `substitute.rs::substitute_next_token` as it appears to its callers: on an
empty stream produce nothing, otherwise rewrite the head (and possibly a
following argument list), returning the produced stream and the remaining
input. -/
def substituteNextToken (global cur : SubstitutionGroup) : List Tok →
    Except RErr (Option (List Tok) × List Tok)
| [] => .ok (none, [])
| t :: tl =>
  match snt global cur t tl with
  | .ok pr => .ok (some pr.1, pr.2.val)
  | .error e => .error e

/-- The hint attached when the substitution body group is missing
(`parse.rs::extract_inline_substitution`). -/
def substHint : String :=
  "Hint: A substitution identifier should be followed by a group containing the code to be inserted instead of any occurrence of the identifier."

/-- `parse.rs::extract_inline_substitution`: an identifier, an optional
parenthesised parameter list, and a bracketed substitution body.  On success
the result carries the built `Substitution`; when only the identifier (and
possibly the parameter list) is present, the identifier is returned with the
optionally consumed parameter group (`Ok((ident, Err(..)))` in Rust); a
non-identifier first token is an error consuming nothing.  The remaining
stream is returned alongside. -/
def extractInlineSubstitution (ts : List Tok) :
    Except RErr
      (((String × Span) × Except (Option (Delim × List Tok × Span)) Substitution) × List Tok) :=
  match peekNextToken ts callSite "Substitution identifier" with
  | .error e => .error e
  | .ok t =>
    match t with
    | .ident s sp =>
      let ts1 := ts.drop 1
      match peekParseGroup ts1 (some .paren) sp "" with
      | .ok (pd, params, psp) =>
        let ts2 := ts1.drop 1
        match parseGroup ts2 (some .bracket) sp substHint with
        | .ok ((_, subStream, _), ts3) =>
          match extractArgumentList params with
          | .ok args => .ok (((s, sp), .ok (Substitution.new args subStream)), ts3)
          | .error _ => .ok (((s, sp), .error (some (pd, params, psp))), ts3)
        | .error _ => .ok (((s, sp), .error (some (pd, params, psp))), ts2)
      | .error _ =>
        match parseGroup ts1 (some .bracket) sp substHint with
        | .ok ((_, subStream, _), ts2) =>
          .ok (((s, sp), .ok (Substitution.newSimple subStream)), ts2)
        | .error _ => .ok (((s, sp), .error none), ts1)
    | t => .error (.err t.span "Expected substitution identifier.")

/-- The pair-collection loop of `parse.rs::extract_verbose_substitutions`:
extract inline substitutions while they parse, recording each in the group
(re-assignment errors propagate); any other outcome ends the loop.  The fuel
only guards the recursion; each successful iteration consumes at least one
token, so `length + 1` fuel at the call site always suffices. -/
def extractPairsLoop : Nat → List Tok → SubstitutionGroup → Except RErr SubstitutionGroup
| 0, _, _ => .error (.fatal "recursion fuel exhausted")
| fuel + 1, ts, acc =>
  match extractInlineSubstitution ts with
  | .ok ((id, .ok sub), rest) =>
    match acc.addSubstitution id sub with
    | .ok acc' => extractPairsLoop fuel rest acc'
    | .error e => .error e
  | _ => .ok acc

/-- The hint of `extract_verbose_substitutions`'s group check. -/
def verboseGroupHint : String :=
  "Hint: When using verbose syntax, a substitutions must be enclosed in a group.\nExample:\n..\n[\n\tidentifier1 [ substitution1 ]\n\tidentifier2 [ substitution2 ]\n]"

/-- The identifier/arity pairs of the current group that are absent from the
expected set (`sub_idents.difference(&idents)` in Rust, which iterates a
`HashSet` in unspecified order; here in the group's insertion order). -/
def verboseDiff (subIdents existing : List (String × Nat)) : List (String × Nat) :=
  subIdents.filter (fun p => !(existing.contains p))

/-- The per-identifier argument marks of the verbose-consistency error
message: `(`, an underscore when the arity is positive, `,_` for each further
argument, `)`. -/
def argMarks (count : Nat) : String :=
  (if count > 0 then "_" else "") ++ String.join (List.replicate (count - 1) ",_")

/-- The verbose-consistency error message, naming each offending
identifier with its argument marks. -/
def verboseDiffMsg (diff : List (String × Nat)) : String :=
  "Invalid substitutions.\nThe following identifiers were not found in previous substitution groups or had different arguments:\n"
    ++ String.join (diff.map (fun p => p.1 ++ "(" ++ argMarks p.2 ++ ")"))

/-- `parse.rs::extract_verbose_substitutions`: the group must be bracketed and
non-empty; its inline substitutions are collected, and — when an expected
identifier/arity set exists (from the first group) — any collected pair
absent from that set is an error naming the offenders.  Pairs of the expected
set missing from this group are not checked. -/
def extractVerboseSubstitutions (tree : Tok) (existing : Option (List (String × Nat))) :
    Except RErr SubstitutionGroup := do
  let treeSpan := tree.span
  let (_, stream, gspan) ← checkGroup tree .bracket verboseGroupHint
  if stream.length = 0 then .error (.err gspan "No substitution groups found.")
  else do
    let subs ← extractPairsLoop (stream.length + 1) stream SubstitutionGroup.empty
    match existing with
    | some idents =>
      let diff := verboseDiff subs.identifiersWithArgs idents
      if diff.length > 0 then .error (.err treeSpan (verboseDiffMsg diff))
      else .ok subs
    | none => .ok subs

/-- The loop of `parse.rs::validate_global_substitutions`: consume complete
`identifier (params)? [substitution] ;` entries into the global group; an
incomplete entry is handed back as the lookahead for the following syntax; a
failed identifier peek ends the loop.  Fuel as in `extractPairsLoop`. -/
def validateGlobalSubstitutionsGo :
    Nat → List Tok → SubstitutionGroup →
    Except RErr
      (SubstitutionGroup × Option ((String × Span) × Option (Delim × List Tok × Span)) × List Tok)
| 0, _, _ => .error (.fatal "recursion fuel exhausted")
| fuel + 1, ts, acc =>
  match extractInlineSubstitution ts with
  | .ok ((id, .ok sub), rest) =>
    match acc.addSubstitution id sub with
    | .error e => .error e
    | .ok acc' =>
      match rest with
      | t :: rest' =>
        if t.isSemicolon then validateGlobalSubstitutionsGo fuel rest' acc'
        else .error (.err t.span "Expected \x27;\x27.")
      | [] => .ok (acc', none, [])
  | .ok ((id, .error g), rest) => .ok (acc, some (id, g), rest)
  | .error _ => .ok (acc, none, ts)

/-- Modelled from the spec: the nested-invocation marker test used by
`parse.rs` (its `is_nested_invocation(p: &Punct)` is not among the sources;
`parse.rs`'s own hint text — "\x27#\x27 is a nested invocation of the macro" — and
its comment "consume \x27#\x27" identify the marker as a lone `#`). -/
def isNestedInvocationPunct (c : Char) (alone : Bool) : Bool :=
  punctIsChar c alone '#'

/-- The hint of `parse.rs::invoke_nested`. -/
def nestedHint : String :=
  "Hint: \x27#\x27 is a nested invocation of the macro and must therefore be followed by a group containing the invocation.\nExample:\n#[\n\tidentifier [ substitute1 ] [ substitute2 ]\n][\n\tCode to be substituted whenever \x27identifier\x27 occurs \n]"

/-- `parse.rs::validate_short_get_identifier_arguments`: a parenthesised
argument list is consumed and extracted; anything else leaves the stream
untouched with no arguments. -/
def validateShortGetIdentifierArguments (ts : List Tok) :
    Except RErr (List String × List Tok) :=
  match ts with
  | .group d inner _ :: rest =>
    if d = .paren then do
      let args ← extractArgumentList inner
      .ok (args, rest)
    else .ok ([], ts)
  | _ => .ok ([], ts)

/-- The loop of `parse.rs::validate_short_get_identifiers`: identifiers (each
with an optional argument list) until the terminating semicolon.  Fuel as in
`extractPairsLoop`. -/
def validateShortGetIdentifiersGo :
    Nat → List Tok → Span → List (String × List String) →
    Except RErr (List (String × List String) × Span × List Tok)
| 0, _, _, _ => .error (.fatal "recursion fuel exhausted")
| fuel + 1, ts, span, acc =>
  match nextToken ts span "Substitution identifier or \x27;\x27" with
  | .error e => .error e
  | .ok (t, rest) =>
    match t with
    | .ident s _ => do
      let (args, rest') ← validateShortGetIdentifierArguments rest
      validateShortGetIdentifiersGo fuel rest' t.span (acc ++ [(s, args)])
    | t =>
      if t.isSemicolon then .ok (acc, t.span, rest)
      else .error (.err t.span "Expected substitution identifier or \x27;\x27.")

/-- The `for stream in groups` tail of
`parse.rs::validate_short_get_substitutions`: parse the remaining bracketed
substitutions of one batch. -/
def collectBrackets : Nat → List Tok → Span → Except RErr (List (List Tok) × Span × List Tok)
| 0, ts, span => .ok ([], span, ts)
| k + 1, ts, span =>
  match parseGroup ts (some .bracket) span "" with
  | .ok ((_, inner, gsp), rest) => do
    let (more, span', rest') ← collectBrackets k rest gsp
    .ok (inner :: more, span', rest')
  | .error e => .error e

/-- `parse.rs::validate_short_get_substitutions` for a batch of `n`
identifiers: nothing on an exhausted stream; otherwise one bracketed
substitution per identifier (`groups.next().unwrap()` on an empty identifier
list is a Rust panic). -/
def validateShortGetSubstitutions (ts : List Tok) (span : Span) (n : Nat) :
    Except RErr (Option (List (List Tok)) × Span × List Tok) :=
  match ts with
  | [] => .ok (none, span, [])
  | t :: rest => do
    let (_, inner, gsp) ← checkGroup t .bracket ""
    if n = 0 then .error (.fatal "groups.next() unwrap on empty identifier list")
    else do
      let (more, span', rest') ← collectBrackets (n - 1) rest gsp
      .ok (some (inner :: more), span', rest')

/-- Record one batch of substitutions positionally against the identifier
records (the lazily pushed-then-assigned streams of the Rust closure). -/
def appendBatch (result : List (String × List String × List (List Tok)))
    (batch : List (List Tok)) : List (String × List String × List (List Tok)) :=
  result.zipWith (fun r s => (r.1, r.2.1, r.2.2 ++ [s])) batch

/-- The re-ordering step of `parse_invocation`'s short-syntax arm for one
identifier: its K-th substitution is added to the K-th group (an index past
the group vector is a Rust panic; shorter substitution lists stop early, as
`enumerate` does). -/
def addToEach (ident : String) (args : List String) :
    List SubstitutionGroup → List (List Tok) → Except RErr (List SubstitutionGroup)
| gs, [] => .ok gs
| g :: gs', s :: ss' => do
  let g' ← g.addSubstitution (ident, callSite) (Substitution.new args s)
  let rest ← addToEach ident args gs' ss'
  .ok (g' :: rest)
| [], _ :: _ => .error (.fatal "reorder index out of bounds")

/-- `parse_invocation`'s `reorder` construction: `n` empty groups, then each
identifier's substitutions distributed positionally. -/
def buildReorder (subs : List (String × List String × List (List Tok))) (n : Nat) :
    Except RErr (List SubstitutionGroup) :=
  subs.foldlM (fun gs p => addToEach p.1 p.2.1 gs p.2.2) (List.replicate n SubstitutionGroup.empty)

mutual

/-- `parse.rs::parse_invocation`: global substitutions first; if nothing was
handed back, the payload is verbose syntax (erroring on a completely empty
payload when no globals were parsed); otherwise the handed-back lookahead is
re-chained and parsed as short syntax, whose per-identifier substitution
lists are re-ordered into one `SubstitutionGroup` per duplicate
(`Substitution::new` cannot fail, so the `Failed creating substitution` arm
of the Rust code is unreachable).  The fuel bounds the recursion through
nested invocations, whose expansion is re-parsed and can in principle nest
without bound; `RErr.fatal` marks exhaustion. -/
def parseInvocationF : Nat → List Tok → Except RErr DuplicationDefinition
| 0, _ => .error (.fatal "recursion fuel exhausted")
| fuel + 1, attr => do
  let (globals, extra, rest) ←
    validateGlobalSubstitutionsGo (attr.length + 1) attr SubstitutionGroup.empty
  match extra with
  | none => do
    let dups ← validateVerboseInvocationF fuel rest globals.subs.isEmpty
    .ok ⟨globals, dups⟩
  | some (id, g) => do
    let chained := Tok.ident id.1 id.2 ::
      ((match g with
        | some (d, inner, gsp) => [Tok.group d inner gsp]
        | none => []) ++ rest)
    let subs ← validateShortAttrF fuel chained
    match subs.head? with
    | none => .error (.fatal "substitutions[0] out of bounds")
    | some s0 => do
      let reorder ← buildReorder subs s0.2.2.length
      .ok ⟨globals, reorder⟩

/-- `parse.rs::validate_verbose_invocation`: error on an empty stream when no
global substitutions were found, then collect substitution groups. -/
def validateVerboseInvocationF : Nat → List Tok → Bool → Except RErr (List SubstitutionGroup)
| 0, _, _ => .error (.fatal "recursion fuel exhausted")
| fuel + 1, ts, errOnNoSubs =>
  if errOnNoSubs ∧ ts.isEmpty then .error (.err callSite "No substitutions found.")
  else validateVerboseGoF fuel ts [] none callSite

/-- The loop of `validate_verbose_invocation`: each token is either the
nested-invocation marker — whose expansion is recursively validated and
spliced into the group list without touching the expected identifier set — or
a substitution group; the expected set is recorded from the first group of
the list once one has been pushed. -/
def validateVerboseGoF :
    Nat → List Tok → List SubstitutionGroup → Option (List (String × Nat)) → Span →
    Except RErr (List SubstitutionGroup)
| 0, _, _, _, _ => .error (.fatal "recursion fuel exhausted")
| fuel + 1, ts, acc, ids, errSpan =>
  match nextToken ts errSpan "Substitution group" with
  | .error _ => .ok acc
  | .ok (tree, rest) =>
    if (match tree with
        | .punct c alone _ => isNestedInvocationPunct c alone
        | _ => false) then do
      let (nested, rest') ← invokeNestedF fuel rest tree.span
      let subs ← validateVerboseInvocationF fuel nested true
      validateVerboseGoF fuel rest' (acc ++ subs) ids tree.span
    else do
      let g ← extractVerboseSubstitutions tree ids
      let acc' := acc ++ [g]
      let ids' :=
        if ids.isNone then some ((acc'.headD SubstitutionGroup.empty).identifiersWithArgs)
        else ids
      validateVerboseGoF fuel rest acc' ids' tree.span

/-- `parse.rs::invoke_nested`: the bracketed nested invocation payload is
parsed recursively, the bracketed nested item is read, and the nested
duplication is run; its output is spliced back (returned with the remaining
stream). -/
def invokeNestedF : Nat → List Tok → Span → Except RErr (List Tok × List Tok)
| 0, _, _ => .error (.fatal "recursion fuel exhausted")
| fuel + 1, ts, span => do
  let ((_, attrInner, attrSpan), ts1) ← parseGroup ts (some .bracket) span nestedHint
  let dupDef ← parseInvocationF fuel attrInner
  let ((_, itemInner, _), ts2) ← parseGroup ts1 (some .bracket) attrSpan nestedHint
  let out ← duplicateAndSubstitute itemInner dupDef.globalSubstitutions dupDef.duplications
  .ok (out, ts2)

/-- `parse.rs::validate_short_attr`: the identifier row, then all
substitution batches. -/
def validateShortAttrF :
    Nat → List Tok → Except RErr (List (String × List String × List (List Tok)))
| 0, _ => .error (.fatal "recursion fuel exhausted")
| fuel + 1, ts => do
  let (idents, span, rest) ← validateShortGetIdentifiersGo (ts.length + 1) ts callSite []
  let result0 := idents.map (fun p => (p.1, p.2, ([] : List (List Tok))))
  validateShortGetAllGroupsF fuel rest span result0

/-- The loop of `parse.rs::validate_short_get_all_substitution_goups`: a
leading `#` splices a nested invocation's output (recursively batched) and
continues; otherwise one batch of bracketed substitutions is read, followed
by `;` (optional before the end).  A leading punctuation that is not `#`
makes the Rust loop spin forever (its `if let` matches but the nested test
fails and nothing is consumed); that divergence surfaces here as fuel
exhaustion. -/
def validateShortGetAllGroupsF :
    Nat → List Tok → Span → List (String × List String × List (List Tok)) →
    Except RErr (List (String × List String × List (List Tok)))
| 0, _, _, _ => .error (.fatal "recursion fuel exhausted")
| fuel + 1, ts, span, result =>
  match ts with
  | .punct c alone psp :: rest =>
    if isNestedInvocationPunct c alone then do
      let (nested, rest') ← invokeNestedF fuel rest psp
      let result' ← validateShortGetAllGroupsF fuel nested span result
      validateShortGetAllGroupsF fuel rest' span result'
    else validateShortGetAllGroupsF fuel (Tok.punct c alone psp :: rest) span result
  | other => do
    let (batch, _span', rest') ← validateShortGetSubstitutions other span result.length
    let result' := match batch with
      | some b => appendBatch result b
      | none => result
    match rest' with
    | [] => .ok result'
    | t :: rest'' =>
      if t.isSemicolon then validateShortGetAllGroupsF fuel rest'' t.span result'
      else .error (.err t.span "Expected \x27;\x27.")

end

/-- All identifier-token names occurring anywhere in a stream, including
inside nested delimited groups (used to state the identity law). -/
def identsOf : List Tok → List String
| [] => []
| .ident s _ :: rest => s :: identsOf rest
| .group _ inner _ :: rest => identsOf inner ++ identsOf rest
| _ :: rest => identsOf rest

/-- Deep group-span reset: one rewrite pass rebuilds every group with
`Group::new`, which leaves the group's span at call-site, while all other
tokens (and all delimiters and token contents) are preserved. -/
def resetGroupSpans : List Tok → List Tok
| [] => []
| .group d inner _ :: rest => .group d (resetGroupSpans inner) callSite :: resetGroupSpans rest
| t :: rest => t :: resetGroupSpans rest

/-- Spec-side direct application of a substitution body (§4.2 of the spec):
fixed tokens verbatim, a parameter identifier replaced by the matching
argument verbatim, groups re-wrapped around the recursively applied interior.
Used as the reference in the arity-law refinement of `Substitution::new` +
`Substitution::apply`. -/
def applyDirect (arguments : List String) (actuals : List (List Tok)) : List Tok → List Tok
| [] => []
| .ident s sp :: rest =>
  (match arguments.findIdx? (· == s) with
   | some i => (actuals[i]?.getD []) ++ applyDirect arguments actuals rest
   | none => .ident s sp :: applyDirect arguments actuals rest)
| .group d inner _ :: rest =>
  .group d (applyDirect arguments actuals inner) callSite :: applyDirect arguments actuals rest
| t :: rest => t :: applyDirect arguments actuals rest

/-- A canonical comma-separated bracketed argument list, as it appears inside
the parentheses of a parameterized substitution application site. -/
def commaSeparated : List (List Tok × Span) → List Tok
| [] => []
| [(a, sp)] => [.group .bracket a sp]
| (a, sp) :: rest => .group .bracket a sp :: .punct ',' true sp :: commaSeparated rest

/-- Spec-side "simple" candidate predicate of the module disambiguator
(§4.5): the candidate's substitution resolves, in every per-duplicate group,
to exactly one bare identifier token and nothing else. -/
def isSimpleCandidate (gs : List SubstitutionGroup) (c : String) : Bool :=
  gs.all (fun g =>
    match g.lookup c with
    | some sub => sub.substitutesIdentifier.isSome
    | none => false)

/-- The bare-identifier value a group's substitution of the candidate
produces (empty when the candidate is not simple in that group). -/
def simpleValueOf (g : SubstitutionGroup) (c : String) : String :=
  match (g.lookup c).bind Substitution.substitutesIdentifier with
  | some (v, _) => v
  | none => ""

/-- Whether a token is a `None`-delimited group. -/
def Tok.isNoneDelimGroup : Tok → Bool
| .group .nonDelim _ _ => true
| _ => false

/-- Whether an `Except` value is a success. -/
def exceptIsOk : Except RErr α → Bool
| .ok _ => true
| .error _ => false

/-!  Helper lemmas about the engine. -/

theorem toksSize_cons (t : Tok) (ts : List Tok) :
    toksSize (t :: ts) = 1 + Tok.innerSize t + toksSize ts := by
  simp [toksSize]

/-- When there is no module-disambiguation work left (no disambiguation
information, or the module substitution already happened), the per-duplicate
loop is exactly one plain rewrite pass. -/
theorem dupLoop_noMod (global cur : SubstitutionGroup) :
    ∀ n ts (mi : Option ((String × Span) × String)) (b : Bool), toksSize ts ≤ n →
      (mi = none ∨ b = true) →
      dupLoop global cur mi b ts = substituteStream global cur ts := by
  intro n
  induction n with
  | zero =>
    intro ts mi b h hmib
    cases ts with
    | nil =>
      rw [dupLoop.eq_def, substituteStream.eq_def]
      rcases hmib with hmi | hb
      · subst hmi; cases b <;> simp [dupStep.eq_def]
      · subst hb; simp [dupStep.eq_def]
    | cons t tl => simp [toksSize] at h
  | succ n ih =>
    intro ts mi b h hmib
    have hstep : dupLoop global cur mi b ts = dupStep global cur mi b ts := by
      rw [dupLoop.eq_def]
      rcases hmib with hmi | hb
      · subst hmi; cases b <;> simp
      · subst hb; simp
    rw [hstep, dupStep.eq_def, substituteStream.eq_def]
    cases ts with
    | nil => rfl
    | cons t tl =>
      cases hs : snt global cur t tl with
      | error e => simp [hs, Bind.bind, Except.bind]
      | ok pr =>
        simp only [hs, Bind.bind, Except.bind]
        rw [ih pr.2.val mi b (by have := pr.2.2; simp [toksSize] at h; omega) hmib]

/-- The group-tail loop is the monadic map of one rewrite pass per group,
concatenated. -/
theorem dupGroupsTail_eq (item : List Tok) (global : SubstitutionGroup)
    (mi : Option ((String × Span) × String)) :
    ∀ gs : List SubstitutionGroup,
      dupGroupsTail item global mi gs =
        (gs.mapM (fun g => dupLoop global g mi false item)).map List.flatten := by
  intro gs
  induction gs with
  | nil =>
    rw [dupGroupsTail.eq_def]
    simp [List.mapM, List.mapM.loop, Except.map, pure, Except.pure]
  | cons g gs ih =>
    rw [dupGroupsTail.eq_def]
    rw [List.mapM_cons]
    cases hd : dupLoop global g mi false item with
    | error e => simp [hd, Bind.bind, Except.bind, Except.map]
    | ok a =>
      simp only [hd, Bind.bind, Except.bind]
      rw [ih]
      cases hm : (gs.mapM (fun g => dupLoop global g mi false item)) with
      | error e => simp [hm, Except.map, Bind.bind, Except.bind]
      | ok parts => simp [hm, Except.map, Bind.bind, Except.bind, pure, Except.pure]

/-- C1: for every invocation with per-duplicate groups `gs` (at least one) and
target fragment `item`, `duplicate_and_substitute` returns the literal
concatenation, in group order, of one copy of `item` per group, each copy
independently rewritten by one pass (`dupLoop` — per-duplicate group with
fallback to the global group, plus the once-computed module-disambiguation
information). -/
theorem C1_output_is_concat_of_independent_rewrites (item : List Tok)
    (global : SubstitutionGroup) (gs : List SubstitutionGroup) (hne : gs ≠ []) :
    duplicateAndSubstitute item global gs = (do
      let mi ← disambiguateModule item gs
      let parts ← gs.mapM (fun g => dupLoop global g mi false item)
      pure parts.flatten) := by
  obtain ⟨g1, gs', rfl⟩ : ∃ g1 gs', gs = g1 :: gs' := by
    cases gs with
    | nil => exact absurd rfl hne
    | cons a l => exact ⟨a, l, rfl⟩
  rw [duplicateAndSubstitute.eq_def]
  cases hmi : disambiguateModule item (g1 :: gs') with
  | error e => simp [hmi, Bind.bind, Except.bind]
  | ok mi =>
    simp only [hmi, Bind.bind, Except.bind, List.headD, List.tail_cons]
    rw [List.mapM_cons]
    cases hd : dupLoop global g1 mi false item with
    | error e => simp [hd, Bind.bind, Except.bind]
    | ok a =>
      simp only [hd, Bind.bind, Except.bind]
      rw [dupGroupsTail_eq]
      cases hm : (gs'.mapM (fun g => dupLoop global g mi false item)) with
      | error e => simp [hm, Except.map, Bind.bind, Except.bind]
      | ok parts => simp [hm, Except.map, Bind.bind, Except.bind, pure, Except.pure]

/-- C1 witness: the theorem applied at a concrete two-group invocation. -/
theorem C1_output_is_concat_of_independent_rewrites_witness :
    ([SubstitutionGroup.empty, SubstitutionGroup.empty] ≠ ([] : List SubstitutionGroup))
    ∧ duplicateAndSubstitute [Tok.ident "b" 5] SubstitutionGroup.empty
        [SubstitutionGroup.empty, SubstitutionGroup.empty] = (do
          let mi ← disambiguateModule [Tok.ident "b" 5]
            [SubstitutionGroup.empty, SubstitutionGroup.empty]
          let parts ← [SubstitutionGroup.empty, SubstitutionGroup.empty].mapM
            (fun g => dupLoop SubstitutionGroup.empty g mi false [Tok.ident "b" 5])
          pure parts.flatten) :=
  ⟨by simp,
    C1_output_is_concat_of_independent_rewrites [Tok.ident "b" 5] SubstitutionGroup.empty
      [SubstitutionGroup.empty, SubstitutionGroup.empty] (by simp)⟩

/-- C2: with an empty per-duplicate group list, `duplicate_and_substitute`
performs exactly one substitution pass over the fragment, with the empty
group as the per-duplicate group — so only the global group can substitute —
producing exactly one substituted copy. -/
theorem C2_empty_groups_single_global_pass (item : List Tok) (global : SubstitutionGroup)
    (_hglobal : global.subs ≠ []) :
    duplicateAndSubstitute item global [] =
      substituteStream global SubstitutionGroup.empty item := by
  rw [duplicateAndSubstitute.eq_def]
  have hdis : disambiguateModule item [] = .ok none := by
    rw [disambiguateModule.eq_def]
    simp
  rw [hdis]
  simp only [Bind.bind, Except.bind, List.headD, List.tail_nil]
  rw [dupLoop_noMod global SubstitutionGroup.empty (toksSize item) item none false
    (Nat.le_refl _) (Or.inl rfl)]
  cases hs : substituteStream global SubstitutionGroup.empty item with
  | error e => simp
  | ok out =>
    rw [dupGroupsTail.eq_def]
    simp [pure, Except.pure]

/-- Identity of one rewrite pass on a stream none of whose identifiers (at
any nesting depth) is declared in either group: every token is copied, with
group spans reset by `Group::new`. -/
theorem substituteStream_inert (global cur : SubstitutionGroup) :
    ∀ n ts, toksSize ts ≤ n →
      (∀ s ∈ identsOf ts, cur.lookup s = none ∧ global.lookup s = none) →
      substituteStream global cur ts = .ok (resetGroupSpans ts) := by
  intro n
  induction n with
  | zero =>
    intro ts h _
    cases ts with
    | nil => rw [substituteStream.eq_def]; simp [resetGroupSpans]
    | cons t tl => simp [toksSize] at h
  | succ n ih =>
    intro ts h hids
    cases ts with
    | nil => rw [substituteStream.eq_def]; simp [resetGroupSpans]
    | cons t tl =>
      have htl : toksSize tl ≤ n := by simp [toksSize] at h; omega
      rw [substituteStream.eq_2]
      cases t with
      | ident s sp =>
        have hl := hids s (by simp [identsOf])
        have htlids : ∀ s' ∈ identsOf tl, cur.lookup s' = none ∧ global.lookup s' = none := by
          intro s' hs'
          exact hids s' (by simp [identsOf, hs'])
        rw [snt.eq_def]
        simp only [hl.1, hl.2, Bind.bind, Except.bind]
        rw [ih tl htl htlids]
        simp [resetGroupSpans]
      | group d inner gsp =>
        have hin : toksSize inner ≤ n := by
          simp [toksSize, Tok.innerSize] at h; omega
        have hinids : ∀ s' ∈ identsOf inner, cur.lookup s' = none ∧ global.lookup s' = none := by
          intro s' hs'
          refine hids s' ?_
          simp [identsOf, hs']
        have htlids : ∀ s' ∈ identsOf tl, cur.lookup s' = none ∧ global.lookup s' = none := by
          intro s' hs'
          refine hids s' ?_
          simp [identsOf, hs']
        rw [snt.eq_def]
        simp only [Bind.bind, Except.bind]
        rw [ih inner hin hinids]
        simp only [Bind.bind, Except.bind]
        rw [ih tl htl htlids]
        simp [resetGroupSpans]
      | punct c alone sp =>
        have htlids : ∀ s' ∈ identsOf tl, cur.lookup s' = none ∧ global.lookup s' = none := by
          intro s' hs'
          exact hids s' (by simp [identsOf, hs'])
        rw [snt.eq_def]
        simp only [Bind.bind, Except.bind]
        rw [ih tl htl htlids]
        simp [resetGroupSpans]
      | lit s sp =>
        have htlids : ∀ s' ∈ identsOf tl, cur.lookup s' = none ∧ global.lookup s' = none := by
          intro s' hs'
          exact hids s' (by simp [identsOf, hs'])
        rw [snt.eq_def]
        simp only [Bind.bind, Except.bind]
        rw [ih tl htl htlids]
        simp [resetGroupSpans]

/-- C3: identity law — when no identifier occurring anywhere in the fragment
(including inside nested delimited groups) is a key of the per-duplicate or
the global group, one rewrite pass returns the fragment unchanged token for
token: every token's content and every group's delimiter are preserved (each
rebuilt group's span is reset to call-site by `Group::new`, which is the only
difference `resetGroupSpans` records). -/
theorem C3_identity_law (global cur : SubstitutionGroup) (ts : List Tok)
    (h : ∀ s ∈ identsOf ts, cur.lookup s = none ∧ global.lookup s = none) :
    substituteStream global cur ts = .ok (resetGroupSpans ts) :=
  substituteStream_inert global cur (toksSize ts) ts (Nat.le_refl _) h

/-- C3 witness: the theorem applied at a concrete fragment with a nested
group, against concrete groups declaring an unrelated identifier. -/
theorem C3_identity_law_witness :
    (∀ s ∈ identsOf [Tok.ident "x" 1, Tok.group .paren [Tok.ident "y" 2] 3, Tok.lit "7" 4],
      (SubstitutionGroup.mk [("a", Substitution.newSimple [Tok.ident "X" 7])]).lookup s = none
      ∧ (SubstitutionGroup.mk [("b", Substitution.newSimple [Tok.ident "Y" 8])]).lookup s = none)
    ∧ substituteStream (SubstitutionGroup.mk [("b", Substitution.newSimple [Tok.ident "Y" 8])])
        (SubstitutionGroup.mk [("a", Substitution.newSimple [Tok.ident "X" 7])])
        [Tok.ident "x" 1, Tok.group .paren [Tok.ident "y" 2] 3, Tok.lit "7" 4] =
      .ok (resetGroupSpans [Tok.ident "x" 1, Tok.group .paren [Tok.ident "y" 2] 3, Tok.lit "7" 4]) :=
  ⟨by intro s hs; simp [identsOf] at hs; rcases hs with rfl | rfl <;> exact ⟨rfl, rfl⟩,
    C3_identity_law _ _ _
      (by intro s hs; simp [identsOf] at hs; rcases hs with rfl | rfl <;> exact ⟨rfl, rfl⟩)⟩

/-- When the rewrite pass reaches an identifier declared in both groups after
an inert prefix, it aborts with the ambiguity error. -/
theorem substituteStream_ambiguous (global cur : SubstitutionGroup) (i : String) (sp : Span)
    (rest : List Tok) (hc : (cur.lookup i).isSome) (hg : (global.lookup i).isSome) :
    ∀ n pre, toksSize pre ≤ n →
      (∀ s ∈ identsOf pre, cur.lookup s = none ∧ global.lookup s = none) →
      substituteStream global cur (pre ++ Tok.ident i sp :: rest) =
        .error (.err sp "Multiple substitutions for identifier") := by
  obtain ⟨sc, hsc⟩ := Option.isSome_iff_exists.mp hc
  obtain ⟨sg, hsg⟩ := Option.isSome_iff_exists.mp hg
  intro n
  induction n with
  | zero =>
    intro pre h hids
    cases pre with
    | nil =>
      rw [List.nil_append, substituteStream.eq_2, snt.eq_def]
      simp [hsc, hsg, Bind.bind, Except.bind]
    | cons t tl => simp [toksSize] at h
  | succ n ih =>
    intro pre h hids
    cases pre with
    | nil =>
      rw [List.nil_append, substituteStream.eq_2, snt.eq_def]
      simp [hsc, hsg, Bind.bind, Except.bind]
    | cons t tl =>
      have htl : toksSize tl ≤ n := by simp [toksSize] at h; omega
      rw [List.cons_append, substituteStream.eq_2]
      cases t with
      | ident s sp' =>
        have hl := hids s (by simp [identsOf])
        rw [snt.eq_def]
        simp only [hl.1, hl.2, Bind.bind, Except.bind]
        rw [ih tl htl (fun s' hs' => hids s' (by simp [identsOf, hs']))]
      | group d inner gsp =>
        have hin : toksSize inner ≤ toksSize inner := Nat.le_refl _
        rw [snt.eq_def]
        simp only [Bind.bind, Except.bind]
        rw [substituteStream_inert global cur (toksSize inner) inner (Nat.le_refl _)
          (fun s' hs' => hids s' (by simp [identsOf, hs']))]
        simp only [Bind.bind, Except.bind]
        rw [ih tl htl (fun s' hs' => hids s' (by simp [identsOf, hs']))]
      | punct c alone sp' =>
        rw [snt.eq_def]
        simp only [Bind.bind, Except.bind]
        rw [ih tl htl (fun s' hs' => hids s' (by simp [identsOf, hs']))]
      | lit s sp' =>
        rw [snt.eq_def]
        simp only [Bind.bind, Except.bind]
        rw [ih tl htl (fun s' hs' => hids s' (by simp [identsOf, hs']))]

/-- C6 counterexample: the identifier `a` is declared both in the global group
and in the (only) per-duplicate group, yet the whole operation succeeds and
produces output, because the fragment never mentions `a` — the code only
fails when a doubly-declared identifier is actually encountered during a
rewrite pass, not "before any substitution occurs". -/
theorem C6_counterexample :
    duplicateAndSubstitute [Tok.ident "b" 5]
      (SubstitutionGroup.mk [("a", Substitution.newSimple [Tok.ident "X" 7])])
      [SubstitutionGroup.mk [("a", Substitution.newSimple [Tok.ident "Y" 8])]] =
      .ok [Tok.ident "b" 5] := by
  simp [duplicateAndSubstitute, disambiguateModule, getModuleName, dupLoop, dupStep, snt,
    SubstitutionGroup.lookup, dupGroupsTail, substituteStream, Bind.bind, Except.bind,
    pure, Except.pure]

/-- C6 (amended): when some identifier is declared both in the global group
and in the first per-duplicate group, the operation fails — with the
`Multiple substitutions for identifier` error at the identifier's occurrence,
and produces no output — as soon as the rewrite pass reaches an occurrence of
that identifier in the fragment (here: after a prefix containing no declared
identifier, in a fragment that is not a module declaration); if the
identifier never occurs, no error is raised (see the counterexample). -/
theorem C6_ambiguity_on_occurrence (global cur : SubstitutionGroup)
    (gs' : List SubstitutionGroup) (pre : List Tok) (i : String) (sp : Span) (rest : List Tok)
    (hc : (cur.lookup i).isSome) (hg : (global.lookup i).isSome)
    (hpre : ∀ s ∈ identsOf pre, cur.lookup s = none ∧ global.lookup s = none)
    (hmod : getModuleName (pre ++ Tok.ident i sp :: rest) = none) :
    duplicateAndSubstitute (pre ++ Tok.ident i sp :: rest) global (cur :: gs') =
      .error (.err sp "Multiple substitutions for identifier") := by
  rw [duplicateAndSubstitute.eq_def]
  have hdis : disambiguateModule (pre ++ Tok.ident i sp :: rest) (cur :: gs') = .ok none := by
    rw [disambiguateModule.eq_def]
    simp [hmod]
  rw [hdis]
  simp only [Bind.bind, Except.bind, List.headD, List.tail_cons]
  rw [dupLoop_noMod global cur (toksSize (pre ++ Tok.ident i sp :: rest)) _ none false
    (Nat.le_refl _) (Or.inl rfl)]
  rw [substituteStream_ambiguous global cur i sp rest hc hg (toksSize pre) pre
    (Nat.le_refl _) hpre]

/-- C6 witness: the amended theorem applied at a concrete invocation whose
fragment mentions the doubly-declared identifier after an inert prefix. -/
theorem C6_ambiguity_on_occurrence_witness :
    (((SubstitutionGroup.mk [("a", Substitution.newSimple [Tok.ident "Y" 8])]).lookup "a").isSome
      = true)
    ∧ (((SubstitutionGroup.mk [("a", Substitution.newSimple [Tok.ident "X" 7])]).lookup "a").isSome
      = true)
    ∧ duplicateAndSubstitute [Tok.lit "1" 1, Tok.ident "a" 5, Tok.ident "z" 6]
        (SubstitutionGroup.mk [("a", Substitution.newSimple [Tok.ident "X" 7])])
        [SubstitutionGroup.mk [("a", Substitution.newSimple [Tok.ident "Y" 8])]] =
      .error (.err 5 "Multiple substitutions for identifier") :=
  ⟨rfl, rfl,
    C6_ambiguity_on_occurrence
      (SubstitutionGroup.mk [("a", Substitution.newSimple [Tok.ident "X" 7])])
      (SubstitutionGroup.mk [("a", Substitution.newSimple [Tok.ident "Y" 8])])
      [] [Tok.lit "1" 1] "a" 5 [Tok.ident "z" 6] rfl rfl
      (by intro s hs; simp [identsOf] at hs) rfl⟩

theorem findIdx?_lt_length {α : Type} {p : α → Bool} :
    ∀ {l : List α} {i : Nat}, l.findIdx? p = some i → i < l.length := by
  intro l
  induction l with
  | nil => intro i h; simp [List.findIdx?] at h
  | cons a as ih =>
    intro i h
    rw [List.findIdx?_cons] at h
    by_cases hp : p a
    · simp [hp] at h
      simp [List.length_cons]
      omega
    · simp [hp] at h
      obtain ⟨j, hj, rfl⟩ := h
      have := ih hj
      simp [List.length_cons]
      omega

/-- Applying the compiled parts of `Substitution::new` with matching-arity
arguments is exactly the direct token-level substitution of the body, with
any pending `saved_tokens` prefix emitted verbatim first. -/
theorem applySubTypes_subNewParts (arguments : List String) (actuals : List (List Tok))
    (sp : Span) (hlen : actuals.length = arguments.length) :
    ∀ n body saved, toksSize body ≤ n →
      applySubTypes (subNewParts arguments body saved) actuals sp =
        .ok (saved ++ applyDirect arguments actuals body) := by
  have htokcons : ∀ (saved : List Tok) (ps : List SubType) (out : List Tok),
      applySubTypes ps actuals sp = .ok out →
      applySubTypes (SubType.tok saved :: ps) actuals sp = .ok (saved ++ out) := by
    intro saved ps out hps
    rw [applySubTypes.eq_2]
    simp [hps, Bind.bind, Except.bind, pure, Except.pure]
  have hflush : ∀ (saved : List Tok) (ps : List SubType) (out : List Tok),
      applySubTypes ps actuals sp = .ok out →
      applySubTypes ((if saved.isEmpty then [] else [SubType.tok saved]) ++ ps) actuals sp =
        .ok (saved ++ out) := by
    intro saved ps out hps
    by_cases hs : saved.isEmpty
    · rw [if_pos hs, List.nil_append, List.isEmpty_iff.mp hs, List.nil_append]
      exact hps
    · rw [if_neg hs, List.singleton_append]
      exact htokcons saved ps out hps
  have hnil : ∀ saved : List Tok,
      applySubTypes (subNewParts arguments [] saved) actuals sp = .ok (saved ++ []) := by
    intro saved
    rw [subNewParts.eq_1]
    have := hflush saved [] [] (by rw [applySubTypes.eq_1])
    simpa using this
  intro n
  induction n with
  | zero =>
    intro body saved h
    cases body with
    | nil => rw [applyDirect.eq_1]; exact hnil saved
    | cons t rest => simp [toksSize] at h
  | succ n ih =>
    intro body saved h
    cases body with
    | nil => rw [applyDirect.eq_1]; exact hnil saved
    | cons t rest =>
      have hrest : toksSize rest ≤ n := by simp [toksSize] at h; omega
      cases t with
      | ident s tsp =>
        cases hf : arguments.findIdx? (· == s) with
        | some i =>
          have hi : i < actuals.length := by
            rw [hlen]; exact findIdx?_lt_length hf
          have ha : actuals[i]? = some actuals[i] := List.getElem?_eq_getElem hi
          have hsub : subNewParts arguments (Tok.ident s tsp :: rest) saved =
              (if saved.isEmpty then [] else [SubType.tok saved])
                ++ SubType.arg i :: subNewParts arguments rest [] := by
            rw [subNewParts.eq_2, hf]
          have hdir : applyDirect arguments actuals (Tok.ident s tsp :: rest) =
              actuals[i] ++ applyDirect arguments actuals rest := by
            rw [applyDirect.eq_2, hf]
            simp [ha]
          have hinner :
              applySubTypes (SubType.arg i :: subNewParts arguments rest []) actuals sp =
                .ok (actuals[i] ++ applyDirect arguments actuals rest) := by
            rw [applySubTypes.eq_3, ha]
            simp only [Bind.bind, Except.bind, pure, Except.pure]
            rw [ih rest [] hrest]
            simp [pure, Except.pure]
          rw [hsub, hdir]
          have := hflush saved _ _ hinner
          simpa [List.append_assoc] using this
        | none =>
          have hsub : subNewParts arguments (Tok.ident s tsp :: rest) saved =
              subNewParts arguments rest (saved ++ [Tok.ident s tsp]) := by
            rw [subNewParts.eq_2, hf]
          have hdir : applyDirect arguments actuals (Tok.ident s tsp :: rest) =
              Tok.ident s tsp :: applyDirect arguments actuals rest := by
            rw [applyDirect.eq_2, hf]
          rw [hsub, hdir, ih rest (saved ++ [Tok.ident s tsp]) hrest]
          simp [List.append_assoc]
      | group d inner gsp =>
        have hin : toksSize inner ≤ n := by
          simp [toksSize, Tok.innerSize] at h; omega
        rw [subNewParts.eq_3, applyDirect.eq_3]
        have hinner :
            applySubTypes
              (SubType.group d (.mk arguments.length (subNewParts arguments inner []))
                :: subNewParts arguments rest []) actuals sp =
              .ok (Tok.group d (applyDirect arguments actuals inner) callSite
                :: applyDirect arguments actuals rest) := by
          rw [applySubTypes.eq_4]
          rw [Substitution.apply]
          rw [if_pos hlen]
          rw [ih inner [] hin]
          simp only [List.nil_append, Bind.bind, Except.bind, pure, Except.pure]
          rw [ih rest [] hrest]
          simp [pure, Except.pure]
        have := hflush saved _ _ hinner
        simpa [List.append_assoc] using this
      | punct c alone tsp =>
        rw [subNewParts.eq_4 arguments saved (Tok.punct c alone tsp) rest
          (by intro s sp' hcontra; cases hcontra) (by intro d i g hcontra; cases hcontra)]
        rw [applyDirect.eq_4 arguments actuals (Tok.punct c alone tsp) rest
          (by intro s sp' hcontra; cases hcontra) (by intro d i g hcontra; cases hcontra)]
        rw [ih rest (saved ++ [Tok.punct c alone tsp]) hrest]
        simp [List.append_assoc]
      | lit s tsp =>
        rw [subNewParts.eq_4 arguments saved (Tok.lit s tsp) rest
          (by intro s' sp' hcontra; cases hcontra) (by intro d i g hcontra; cases hcontra)]
        rw [applyDirect.eq_4 arguments actuals (Tok.lit s tsp) rest
          (by intro s' sp' hcontra; cases hcontra) (by intro d i g hcontra; cases hcontra)]
        rw [ih rest (saved ++ [Tok.lit s tsp]) hrest]
        simp [List.append_assoc]

/-- C4: arity law — applying a substitution constructed by
`Substitution::new` over `K` parameters to `J` arguments fails exactly when
`J ≠ K`, with the error reporting both `K` (expected) and `J` (actual),
tagged with the span of the application site; when `J = K` the result is the
direct token-level substitution of the body: fixed tokens verbatim, each
parameter reference replaced by the matching argument verbatim, and each
nested group re-wrapped in its original delimiter around the recursively
applied interior. -/
theorem C4_arity_law (arguments : List String) (body : List Tok)
    (actuals : List (List Tok)) (sp : Span) :
    (actuals.length ≠ arguments.length →
      (Substitution.new arguments body).apply actuals sp =
        .error (.err sp (arityMsg arguments.length actuals.length)))
    ∧ (actuals.length = arguments.length →
      (Substitution.new arguments body).apply actuals sp =
        .ok (applyDirect arguments actuals body)) := by
  constructor
  · intro hne
    rw [Substitution.new, Substitution.apply]
    rw [if_neg hne]
  · intro he
    rw [Substitution.new, Substitution.apply]
    rw [if_pos he]
    have := applySubTypes_subNewParts arguments actuals sp he (toksSize body) body []
      (Nat.le_refl _)
    simpa using this

/-- C4 witness: both directions of the arity law at a concrete one-parameter
substitution. -/
theorem C4_arity_law_witness :
    (([] : List (List Tok)).length ≠ ["p"].length
      ∧ (Substitution.new ["p"] [Tok.ident "p" 1, Tok.lit "2" 2]).apply [] 5 =
        .error (.err 5 (arityMsg 1 0)))
    ∧ ([[Tok.ident "q" 9]].length = ["p"].length
      ∧ (Substitution.new ["p"] [Tok.ident "p" 1, Tok.lit "2" 2]).apply [[Tok.ident "q" 9]] 5 =
        .ok (applyDirect ["p"] [[Tok.ident "q" 9]] [Tok.ident "p" 1, Tok.lit "2" 2])) :=
  ⟨⟨by decide,
      (C4_arity_law ["p"] [Tok.ident "p" 1, Tok.lit "2" 2] [] 5).1 (by decide)⟩,
    ⟨by decide,
      (C4_arity_law ["p"] [Tok.ident "p" 1, Tok.lit "2" 2] [[Tok.ident "q" 9]] 5).2 (by decide)⟩⟩

/-- The argument-collection loop on a canonical comma-separated bracketed
list is the monadic map of a one-group duplication over the argument
snippets. -/
theorem parseArgs_commaSeparated (global cur : SubstitutionGroup) :
    ∀ l : List (List Tok × Span),
      parseArgs global cur (commaSeparated l) =
        (l.map Prod.fst).mapM (fun a => duplicateAndSubstitute a global [cur]) := by
  intro l
  induction l with
  | nil =>
    rw [commaSeparated.eq_1, parseArgs.eq_1]
    simp [List.mapM, List.mapM.loop, pure, Except.pure]
  | cons x xs ih =>
    obtain ⟨a, sp⟩ := x
    cases xs with
    | nil =>
      rw [commaSeparated.eq_2, parseArgs.eq_2, if_pos rfl]
      rw [List.map_cons, List.map_nil, List.mapM_cons]
      cases hd : duplicateAndSubstitute a global [cur] with
      | error e => simp [Bind.bind, Except.bind]
      | ok v => simp [Bind.bind, Except.bind, List.mapM, List.mapM.loop, pure, Except.pure]
    | cons y ys =>
      rw [commaSeparated.eq_3 a sp (y :: ys) (by intro hcontra; cases hcontra)]
      rw [parseArgs.eq_2, if_pos rfl]
      rw [List.map_cons, List.mapM_cons]
      cases hd : duplicateAndSubstitute a global [cur] with
      | error e => simp [Bind.bind, Except.bind]
      | ok v =>
        simp only [Bind.bind, Except.bind]
        have hcomma : punctIsChar ',' true ',' = true := by decide
        simp only [hcomma, if_true, ih]
        cases hm : ((y :: ys).map Prod.fst).mapM (fun a => duplicateAndSubstitute a global [cur])
          with
        | error e => simp [Bind.bind, Except.bind]
        | ok more => simp [Bind.bind, Except.bind, pure, Except.pure]

/-- C8: when the rewrite pass applies a parameterized substitution identifier
(found in exactly one of the current and global groups), each bracketed
argument snippet is first itself rewritten by recursively running
`duplicate_and_substitute` with the current per-duplicate group as the only
per-duplicate group (and the same global group), and the resulting token
streams are what is bound to the parameters when the substitution is
applied. -/
theorem C8_arguments_resolved_by_recursive_pass (global cur : SubstitutionGroup) (i : String)
    (sp psp : Span) (l : List (List Tok × Span)) (rest : List Tok) (sub : Substitution)
    (hsub : (cur.lookup i = some sub ∧ global.lookup i = none)
      ∨ (cur.lookup i = none ∧ global.lookup i = some sub))
    (hargc : sub.argCount > 0) :
    substituteNextToken global cur
        (Tok.ident i sp :: Tok.group .paren (commaSeparated l) psp :: rest) =
      (do
        let args ← (l.map Prod.fst).mapM (fun a => duplicateAndSubstitute a global [cur])
        let out ← sub.apply args psp
        pure ((some out : Option (List Tok)), rest)) := by
  have hsnt : snt global cur (Tok.ident i sp) (Tok.group .paren (commaSeparated l) psp :: rest)
      = (do
          let args ← parseArgs global cur (commaSeparated l)
          let out ← sub.apply args psp
          Except.ok (out, ⟨rest, by simp only [toksSize]; omega⟩)) := by
    rw [snt.eq_def]
    rcases hsub with ⟨h1, h2⟩ | ⟨h1, h2⟩ <;> simp only [h1, h2] <;> rw [if_pos hargc] <;> simp
  rw [substituteNextToken.eq_2, hsnt, parseArgs_commaSeparated]
  cases hm : (l.map Prod.fst).mapM (fun a => duplicateAndSubstitute a global [cur]) with
  | error e => simp [Bind.bind, Except.bind]
  | ok args =>
    simp only [Bind.bind, Except.bind]
    cases ha : sub.apply args psp with
    | error e => simp [Bind.bind, Except.bind]
    | ok out => simp [Bind.bind, Except.bind, pure, Except.pure]

/-- C8 witness: the theorem applied at a concrete one-parameter application
site `r([T])` with a following token. -/
theorem C8_arguments_resolved_by_recursive_pass_witness :
    ((SubstitutionGroup.mk
          [("r", Substitution.new ["p"] [Tok.punct '&' true 1, Tok.ident "p" 2])]).lookup "r"
        = some (Substitution.new ["p"] [Tok.punct '&' true 1, Tok.ident "p" 2])
      ∧ SubstitutionGroup.empty.lookup "r" = none)
    ∧ (Substitution.new ["p"] [Tok.punct '&' true 1, Tok.ident "p" 2]).argCount > 0
    ∧ substituteNextToken SubstitutionGroup.empty
        (SubstitutionGroup.mk
          [("r", Substitution.new ["p"] [Tok.punct '&' true 1, Tok.ident "p" 2])])
        (Tok.ident "r" 3 :: Tok.group .paren (commaSeparated [([Tok.ident "T" 4], 5)]) 6
          :: [Tok.lit "9" 7]) =
      (do
        let args ← ([([Tok.ident "T" 4], 5)].map Prod.fst).mapM
          (fun a => duplicateAndSubstitute a SubstitutionGroup.empty
            [SubstitutionGroup.mk
              [("r", Substitution.new ["p"] [Tok.punct '&' true 1, Tok.ident "p" 2])]])
        let out ← (Substitution.new ["p"] [Tok.punct '&' true 1, Tok.ident "p" 2]).apply args 6
        pure ((some out : Option (List Tok)), [Tok.lit "9" 7])) :=
  ⟨⟨rfl, rfl⟩, by decide,
    C8_arguments_resolved_by_recursive_pass SubstitutionGroup.empty
      (SubstitutionGroup.mk
        [("r", Substitution.new ["p"] [Tok.punct '&' true 1, Tok.ident "p" 2])])
      "r" 3 6 [([Tok.ident "T" 4], 5)] [Tok.lit "9" 7]
      (Substitution.new ["p"] [Tok.punct '&' true 1, Tok.ident "p" 2])
      (Or.inl ⟨rfl, rfl⟩) (by decide)⟩

/-- `find_simple`'s per-candidate check agrees with the spec-side predicate
when every group has the candidate. -/
theorem allSimple_eq (c : String) :
    ∀ gs : List SubstitutionGroup, (∀ g ∈ gs, (g.lookup c).isSome) →
      allSimple c gs = .ok (isSimpleCandidate gs c) := by
  intro gs
  induction gs with
  | nil => intro _; simp [allSimple, isSimpleCandidate]
  | cons g rest ih =>
    intro hpres
    obtain ⟨sub, hsub⟩ := Option.isSome_iff_exists.mp (hpres g (by simp))
    by_cases hsi : sub.substitutesIdentifier.isSome
    · simp only [allSimple, hsub, if_pos hsi]
      rw [ih (fun g' hg' => hpres g' (by simp [hg']))]
      simp [isSimpleCandidate, hsub, hsi]
    · simp only [allSimple, hsub, if_neg hsi]
      simp only [isSimpleCandidate, List.all_cons, hsub]
      simp only [Bool.not_eq_true] at hsi
      simp [hsi]

/-- `find_simple`'s candidate loop is `List.find?` of the spec-side predicate
when every candidate is present in every group. -/
theorem findSimpleGo_eq (gs : List SubstitutionGroup) :
    ∀ l : List String, (∀ c ∈ l, ∀ g ∈ gs, (g.lookup c).isSome) →
      findSimpleGo gs l = .ok (l.find? (isSimpleCandidate gs)) := by
  intro l
  induction l with
  | nil => intro _; simp [findSimpleGo, List.find?]
  | cons c cs ih =>
    intro hpres
    rw [findSimpleGo]
    rw [allSimple_eq c gs (hpres c (by simp))]
    simp only [Bind.bind, Except.bind]
    by_cases hc : isSimpleCandidate gs c
    · simp [hc, List.find?_cons_of_pos]
    · rw [ih (fun c' h' => hpres c' (by simp [h']))]
      simp only [Bool.not_eq_true] at hc
      simp [hc, List.find?_cons_of_neg]

/-- Pointwise-equal step functions give equal monadic maps. -/
theorem mapM_congr_except {α β : Type} (f g : α → Except RErr β) :
    ∀ l : List α, (∀ a ∈ l, f a = g a) → l.mapM f = l.mapM g := by
  intro l
  induction l with
  | nil => intro _; rfl
  | cons a as ih =>
    intro h
    rw [List.mapM_cons, List.mapM_cons, h a (by simp), ih (fun a' h' => h a' (by simp [h']))]

/-- Assembling `duplicate_and_substitute`'s per-group passes: when each
pass equals a reference function `F` on the groups, the head-plus-tail
structure is the monadic map of `F`, concatenated. -/
theorem dup_assemble (item : List Tok) (global : SubstitutionGroup)
    (mi : Option ((String × Span) × String)) (g1 : SubstitutionGroup)
    (gs' : List SubstitutionGroup) (F : SubstitutionGroup → Except RErr (List Tok))
    (hF : ∀ g ∈ g1 :: gs', dupLoop global g mi false item = F g) :
    (do
      let first ← dupLoop global g1 mi false item
      let r ← dupGroupsTail item global mi gs'
      pure (first ++ r)) = (do
      let parts ← (g1 :: gs').mapM F
      pure parts.flatten) := by
  rw [hF g1 (by simp), dupGroupsTail_eq,
    mapM_congr_except _ F gs' (fun g hg => hF g (by simp [hg]))]
  rw [List.mapM_cons]
  cases h1 : F g1 with
  | error e => simp [Bind.bind, Except.bind]
  | ok a =>
    simp only [Bind.bind, Except.bind]
    cases hm : gs'.mapM F with
    | error e => simp [Except.map, Bind.bind, Except.bind]
    | ok parts => simp [Except.map, Bind.bind, Except.bind, pure, Except.pure]

/-- One pass over a module-headed fragment with disambiguation information:
`try_substitute_mod` consumes the `mod` keyword and the name, emits the
renamed module head, and the rest of the pass is a plain rewrite of the
remaining tokens. -/
theorem dupLoop_module (global g : SubstitutionGroup) (name : String) (spM spN : Span)
    (c : String) (tail : List Tok) (sub : Substitution) (v : String) (vsp : Span)
    (hlk : g.lookup c = some sub) (hsi : sub.substitutesIdentifier = some (v, vsp)) :
    dupLoop global g (some ((name, spN), c)) false
        (Tok.ident "mod" spM :: Tok.ident name spN :: tail) =
      (do
        let more ← substituteStream global g tail
        pure (Tok.ident "mod" spM :: Tok.ident (name ++ "_" ++ toSnakeCase v) spN :: more)) := by
  rw [dupLoop.eq_def]
  simp only [hlk, hsi, Bool.false_eq_true, if_false, if_pos rfl]
  rw [dupLoop_noMod global g (toksSize tail) tail (some ((name, spN), c)) true
    (Nat.le_refl _) (Or.inr rfl)]
  cases hs : substituteStream global g tail with
  | error e => simp [Bind.bind, Except.bind]
  | ok more => simp [Bind.bind, Except.bind, pure, Except.pure, Tok.span]

/-- C7: module disambiguation — for a fragment `mod <name> { … } …` whose
name the first per-duplicate group does not substitute (with every identifier
of the first group present in every group, as parsed invocations provide),
the candidate is the first identifier of the first group's declaration order
whose substitution resolves, in every per-duplicate group, to exactly one
bare identifier (`List.find? (isSimpleCandidate ..)`).  If no candidate
qualifies the whole operation fails with the descriptive error at the module
name; otherwise each duplicate's output renames the module to the original
name, an underscore, and the snake-case form of that duplicate's value of the
candidate, followed by the plain rewrite of the remainder. -/
theorem C7_module_disambiguation (global g1 : SubstitutionGroup)
    (gs' : List SubstitutionGroup) (name : String) (spM spN spB : Span)
    (body rest : List Tok) (hname : g1.lookup name = none)
    (hpres : ∀ c ∈ g1.identifiersOrdered, ∀ g ∈ g1 :: gs', (g.lookup c).isSome) :
    (g1.identifiersOrdered.find? (isSimpleCandidate (g1 :: gs')) = none →
      duplicateAndSubstitute
        (Tok.ident "mod" spM :: Tok.ident name spN :: Tok.group .brace body spB :: rest)
        global (g1 :: gs') = .error (.err spN findSimpleErrMsg))
    ∧ (∀ c, g1.identifiersOrdered.find? (isSimpleCandidate (g1 :: gs')) = some c →
      duplicateAndSubstitute
        (Tok.ident "mod" spM :: Tok.ident name spN :: Tok.group .brace body spB :: rest)
        global (g1 :: gs') = (do
          let parts ← (g1 :: gs').mapM (fun g => do
            let tl ← substituteStream global g (Tok.group .brace body spB :: rest)
            pure (Tok.ident "mod" spM
              :: Tok.ident (name ++ "_" ++ toSnakeCase (simpleValueOf g c)) spN :: tl))
          pure parts.flatten)) := by
  have hgmn : getModuleName
      (Tok.ident "mod" spM :: Tok.ident name spN :: Tok.group .brace body spB :: rest) =
      some (name, spN) := rfl
  have hfs : findSimple (g1 :: gs') spN = (do
      let r ← Except.ok (g1.identifiersOrdered.find? (isSimpleCandidate (g1 :: gs')))
      match r with
      | some c => Except.ok c
      | none => Except.error (.err spN findSimpleErrMsg)) := by
    rw [findSimple]
    rw [findSimpleGo_eq (g1 :: gs') g1.identifiersOrdered hpres]
  have hdis : ∀ x, g1.identifiersOrdered.find? (isSimpleCandidate (g1 :: gs')) = x →
      disambiguateModule
        (Tok.ident "mod" spM :: Tok.ident name spN :: Tok.group .brace body spB :: rest)
        (g1 :: gs') =
        (match x with
         | some c => .ok (some ((name, spN), c))
         | none => .error (.err spN findSimpleErrMsg)) := by
    intro x hx
    rw [disambiguateModule.eq_def]
    simp only [List.head?, hgmn, hname, Option.isSome_none, Bool.false_eq_true, if_false]
    rw [hfs, hx]
    cases x <;> simp [Bind.bind, Except.bind]
  constructor
  · intro hnone
    rw [duplicateAndSubstitute.eq_def, hdis none hnone]
    simp [Bind.bind, Except.bind]
  · intro c hsome
    have hcand : isSimpleCandidate (g1 :: gs') c = true := List.find?_some hsome
    have hpass : ∀ g ∈ g1 :: gs',
        dupLoop global g (some ((name, spN), c)) false
          (Tok.ident "mod" spM :: Tok.ident name spN :: Tok.group .brace body spB :: rest) =
        (do
          let tl ← substituteStream global g (Tok.group .brace body spB :: rest)
          pure (Tok.ident "mod" spM
            :: Tok.ident (name ++ "_" ++ toSnakeCase (simpleValueOf g c)) spN :: tl)) := by
      intro g hg
      have hall : (g1 :: gs').all (fun g =>
          match g.lookup c with
          | some sub => sub.substitutesIdentifier.isSome
          | none => false) = true := hcand
      have hpred : (match g.lookup c with
          | some sub => sub.substitutesIdentifier.isSome
          | none => false) = true := by
        simpa using List.all_eq_true.mp hall g hg
      cases hlk : g.lookup c with
      | none => rw [hlk] at hpred; simp at hpred
      | some sub =>
        rw [hlk] at hpred
        have hsome' : sub.substitutesIdentifier.isSome := by simpa using hpred
        obtain ⟨⟨v, vsp⟩, hsi⟩ := Option.isSome_iff_exists.mp hsome'
        have hval : simpleValueOf g c = v := by
          simp [simpleValueOf, hlk, hsi]
        rw [hval]
        exact dupLoop_module global g name spM spN c _ sub v vsp hlk hsi
    rw [duplicateAndSubstitute.eq_def, hdis (some c) hsome]
    simp only [Bind.bind, Except.bind, List.headD, List.tail_cons]
    exact dup_assemble _ global (some ((name, spN), c)) g1 gs' _ hpass

/-- C7 witness: the theorem applied at concrete groups assigning `Tag` to the
bare identifiers `Alpha`/`Beta` (and `Size` to literals), over
`mod container {}`; the candidate found is `Tag`, the first declared. -/
theorem C7_module_disambiguation_witness :
    ((SubstitutionGroup.mk [("Tag", Substitution.newSimple [Tok.ident "Alpha" 10]),
        ("Size", Substitution.newSimple [Tok.lit "1" 11])]).lookup "container" = none)
    ∧ (∀ c ∈ (SubstitutionGroup.mk [("Tag", Substitution.newSimple [Tok.ident "Alpha" 10]),
          ("Size", Substitution.newSimple [Tok.lit "1" 11])]).identifiersOrdered,
        ∀ g ∈ [SubstitutionGroup.mk [("Tag", Substitution.newSimple [Tok.ident "Alpha" 10]),
            ("Size", Substitution.newSimple [Tok.lit "1" 11])],
          SubstitutionGroup.mk [("Tag", Substitution.newSimple [Tok.ident "Beta" 12]),
            ("Size", Substitution.newSimple [Tok.lit "2" 13])]], (g.lookup c).isSome)
    ∧ duplicateAndSubstitute
        (Tok.ident "mod" 1 :: Tok.ident "container" 2 :: Tok.group .brace [] 3 :: [])
        SubstitutionGroup.empty
        [SubstitutionGroup.mk [("Tag", Substitution.newSimple [Tok.ident "Alpha" 10]),
          ("Size", Substitution.newSimple [Tok.lit "1" 11])],
         SubstitutionGroup.mk [("Tag", Substitution.newSimple [Tok.ident "Beta" 12]),
          ("Size", Substitution.newSimple [Tok.lit "2" 13])]] = (do
        let parts ← [SubstitutionGroup.mk [("Tag", Substitution.newSimple [Tok.ident "Alpha" 10]),
            ("Size", Substitution.newSimple [Tok.lit "1" 11])],
          SubstitutionGroup.mk [("Tag", Substitution.newSimple [Tok.ident "Beta" 12]),
            ("Size", Substitution.newSimple [Tok.lit "2" 13])]].mapM (fun g => do
          let tl ← substituteStream SubstitutionGroup.empty g (Tok.group .brace [] 3 :: [])
          pure (Tok.ident "mod" 1
            :: Tok.ident ("container" ++ "_" ++ toSnakeCase (simpleValueOf g "Tag")) 2 :: tl))
        pure parts.flatten) :=
  ⟨rfl,
    by
      intro c hc g hg
      simp [SubstitutionGroup.identifiersOrdered] at hc
      simp at hg
      rcases hc with rfl | rfl <;> rcases hg with rfl | rfl <;> rfl,
    (C7_module_disambiguation SubstitutionGroup.empty
      (SubstitutionGroup.mk [("Tag", Substitution.newSimple [Tok.ident "Alpha" 10]),
        ("Size", Substitution.newSimple [Tok.lit "1" 11])])
      [SubstitutionGroup.mk [("Tag", Substitution.newSimple [Tok.ident "Beta" 12]),
        ("Size", Substitution.newSimple [Tok.lit "2" 13])]]
      "container" 1 2 3 [] [] rfl
      (by
        intro c hc g hg
        simp [SubstitutionGroup.identifiersOrdered] at hc
        simp at hg
        rcases hc with rfl | rfl <;> rcases hg with rfl | rfl <;> rfl)).2 "Tag" rfl⟩

/-- C5 counterexample: the first verbose group establishes the expected set
`{a, b}` (each of arity 0); a subsequent group supplying only `a` has a
different identifier set, yet `extract_verbose_substitutions` accepts it —
the code only diffs the current group against the expected set
(`sub_idents.difference(&idents)`), so missing identifiers are not
detected, contradicting the claim that any differing set fails. -/
theorem C5_counterexample :
    exceptIsOk (extractVerboseSubstitutions
      (Tok.group .bracket [Tok.ident "a" 8, Tok.group .bracket [Tok.ident "z" 9] 10] 11)
      (some [("a", 0), ("b", 0)])) = true := rfl

/-- C5 (amended): a subsequent verbose group (well-formed: bracketed,
non-empty, with its pairs collected into `g`) fails against the expected set
exactly when it contains an identifier/arity pair absent from that set, and
the error names exactly those offending pairs; pairs of the expected set
missing from the group are not detected. -/
theorem C5_verbose_checks_only_extra_identifiers (stream : List Tok) (gsp : Span)
    (E : List (String × Nat)) (g : SubstitutionGroup)
    (hne : stream ≠ [])
    (hloop : extractPairsLoop (stream.length + 1) stream SubstitutionGroup.empty = .ok g) :
    (extractVerboseSubstitutions (Tok.group .bracket stream gsp) (some E) =
      (if verboseDiff g.identifiersWithArgs E = [] then .ok g
       else .error (.err gsp (verboseDiffMsg (verboseDiff g.identifiersWithArgs E)))))
    ∧ (verboseDiff g.identifiersWithArgs E = [] ↔
        ∀ p ∈ g.identifiersWithArgs, p ∈ E) := by
  constructor
  · rw [extractVerboseSubstitutions]
    have hck : checkGroup (Tok.group .bracket stream gsp) .bracket verboseGroupHint =
        .ok (.bracket, stream, gsp) := by
      rw [checkGroup]
      simp
    rw [hck]
    simp only [Bind.bind, Except.bind]
    have hlen : ¬ stream.length = 0 := by
      intro hzero
      exact hne (List.length_eq_zero.mp hzero)
    rw [if_neg hlen]
    rw [hloop]
    simp only [Bind.bind, Except.bind, Tok.span]
    by_cases hdiff : verboseDiff g.identifiersWithArgs E = []
    · rw [if_pos hdiff]
      have : ¬ (verboseDiff g.identifiersWithArgs E).length > 0 := by
        rw [hdiff]; simp
      rw [if_neg this]
    · rw [if_neg hdiff]
      have : (verboseDiff g.identifiersWithArgs E).length > 0 := by
        cases hd : verboseDiff g.identifiersWithArgs E with
        | nil => exact absurd hd hdiff
        | cons x xs => simp [List.length_cons]
      rw [if_pos this]
  · rw [verboseDiff]
    constructor
    · intro hnil p hp
      have := List.filter_eq_nil_iff.mp hnil p hp
      simp at this
      exact this
    · intro hall
      apply List.filter_eq_nil_iff.mpr
      intro p hp
      simp [hall p hp]

/-- C5 witness: the amended theorem applied at the counterexample's second
group against the expected set `{a, b}`. -/
theorem C5_verbose_checks_only_extra_identifiers_witness :
    ([Tok.ident "a" 8, Tok.group .bracket [Tok.ident "z" 9] 10] ≠ ([] : List Tok))
    ∧ (extractPairsLoop ([Tok.ident "a" 8, Tok.group .bracket [Tok.ident "z" 9] 10].length + 1)
        [Tok.ident "a" 8, Tok.group .bracket [Tok.ident "z" 9] 10] SubstitutionGroup.empty =
        .ok (SubstitutionGroup.mk [("a", Substitution.newSimple [Tok.ident "z" 9])]))
    ∧ (extractVerboseSubstitutions
        (Tok.group .bracket [Tok.ident "a" 8, Tok.group .bracket [Tok.ident "z" 9] 10] 11)
        (some [("a", 0), ("b", 0)]) =
      (if verboseDiff (SubstitutionGroup.mk
            [("a", Substitution.newSimple [Tok.ident "z" 9])]).identifiersWithArgs
            [("a", 0), ("b", 0)] = [] then
        .ok (SubstitutionGroup.mk [("a", Substitution.newSimple [Tok.ident "z" 9])])
       else .error (.err 11 (verboseDiffMsg (verboseDiff (SubstitutionGroup.mk
            [("a", Substitution.newSimple [Tok.ident "z" 9])]).identifiersWithArgs
            [("a", 0), ("b", 0)]))))) :=
  ⟨by simp, rfl,
    (C5_verbose_checks_only_extra_identifiers
      [Tok.ident "a" 8, Tok.group .bracket [Tok.ident "z" 9] 10] 11 [("a", 0), ("b", 0)]
      (SubstitutionGroup.mk [("a", Substitution.newSimple [Tok.ident "z" 9])])
      (by simp) rfl).1⟩

/-- C9 counterexample: a `None`-delimited group whose single token is itself
a `None`-delimited group — `peek_next_token` splices only the outermost
group and yields the inner `None`-delimited group as the produced token, so
a delimiter-less group does survive past the cursor boundary, contradicting
the blanket invariant. -/
theorem C9_counterexample :
    peekNextToken [Tok.group .nonDelim [Tok.group .nonDelim [Tok.ident "w" 3] 2] 1] 0 "x" =
      .ok (Tok.group .nonDelim [Tok.ident "w" 3] 2)
    ∧ Tok.isNoneDelimGroup (Tok.group .nonDelim [Tok.ident "w" 3] 2) = true :=
  ⟨rfl, rfl⟩

/-- C9 (amended): the OUTERMOST `None`-delimited group at the head never
survives `peek_next_token`: a single-token content is spliced (yielding that
token, which may itself be delimiter-less), a lone trailing semicolon after a
single token is dropped, and an empty or multi-token content is rejected
with the internal-error message. -/
theorem C9_outer_none_group_spliced (inner : List Tok) (gsp : Span) (rest : List Tok)
    (psp : Span) (e : String) :
    (∀ r, inner = [r] →
      peekNextToken (Tok.group .nonDelim inner gsp :: rest) psp e = .ok r)
    ∧ (∀ r p, inner = [r, p] → p.isSemicolon = true →
      peekNextToken (Tok.group .nonDelim inner gsp :: rest) psp e = .ok r)
    ∧ (∀ r p, inner = [r, p] → p.isSemicolon = false →
      peekNextToken (Tok.group .nonDelim inner gsp :: rest) psp e =
        .error (.err gsp (noneGroupMultiMsg e)))
    ∧ (inner = [] →
      peekNextToken (Tok.group .nonDelim inner gsp :: rest) psp e =
        .error (.err gsp (noneGroupEmptyMsg e)))
    ∧ (∀ t1 t2 t3 more, inner = t1 :: t2 :: t3 :: more →
      peekNextToken (Tok.group .nonDelim inner gsp :: rest) psp e =
        .error (.err gsp (noneGroupMultiMsg e))) := by
  refine ⟨?_, ?_, ?_, ?_, ?_⟩
  · intro r h; subst h; rfl
  · intro r p h hsem; subst h; simp [peekNextToken, hsem]
  · intro r p h hsem; subst h; simp [peekNextToken, hsem]
  · intro h; subst h; rfl
  · intro t1 t2 t3 more h; subst h; rfl

/-- C9 witness: the amended theorem applied to the single-token and
semicolon-dropping cases at concrete inputs. -/
theorem C9_outer_none_group_spliced_witness :
    (([Tok.ident "w" 3] : List Tok) = [Tok.ident "w" 3]
      ∧ peekNextToken [Tok.group .nonDelim [Tok.ident "w" 3] 1] 0 "x" = .ok (Tok.ident "w" 3))
    ∧ (([Tok.ident "w" 3, Tok.punct ';' true 4] : List Tok)
          = [Tok.ident "w" 3, Tok.punct ';' true 4]
      ∧ (Tok.punct ';' true 4).isSemicolon = true
      ∧ peekNextToken [Tok.group .nonDelim [Tok.ident "w" 3, Tok.punct ';' true 4] 1] 0 "x" =
          .ok (Tok.ident "w" 3)) :=
  ⟨⟨rfl, (C9_outer_none_group_spliced [Tok.ident "w" 3] 1 [] 0 "x").1 (Tok.ident "w" 3) rfl⟩,
    ⟨rfl, rfl,
      (C9_outer_none_group_spliced [Tok.ident "w" 3, Tok.punct ';' true 4] 1 [] 0 "x").2.1
        (Tok.ident "w" 3) (Tok.punct ';' true 4) rfl rfl⟩⟩

/-- C10: the completely empty invocation payload (no tokens, hence no global
substitutions and no groups) is rejected with `No substitutions found.` at
call-site rather than succeeding with zero duplicates; and with one global
substitution parsed (`a [x] ;` and nothing else) the parser succeeds in the
global-only mode.  (The fuel `3` only bounds nested-invocation recursion,
which these payloads do not use.) -/
theorem C10_empty_payload_rejected :
    parseInvocationF 3 [] = .error (.err callSite "No substitutions found.")
    ∧ parseInvocationF 3
        [Tok.ident "a" 1, Tok.group .bracket [Tok.ident "x" 2] 3, Tok.punct ';' true 4] =
      .ok ⟨SubstitutionGroup.mk [("a", Substitution.newSimple [Tok.ident "x" 2])], []⟩ :=
  ⟨rfl, rfl⟩

/-- C2 witness: the theorem applied at a concrete non-empty global group. -/
theorem C2_empty_groups_single_global_pass_witness :
    ((SubstitutionGroup.mk [("a", Substitution.newSimple [Tok.ident "X" 7])]).subs ≠ [])
    ∧ duplicateAndSubstitute [Tok.ident "a" 5]
        (SubstitutionGroup.mk [("a", Substitution.newSimple [Tok.ident "X" 7])]) [] =
      substituteStream (SubstitutionGroup.mk [("a", Substitution.newSimple [Tok.ident "X" 7])])
        SubstitutionGroup.empty [Tok.ident "a" 5] :=
  ⟨by simp,
    C2_empty_groups_single_global_pass [Tok.ident "a" 5]
      (SubstitutionGroup.mk [("a", Substitution.newSimple [Tok.ident "X" 7])]) (by simp)⟩



end Duplicate
